import Mathlib

/-!
# go-zendesk: job statuses, organizations and custom fields

A shallow embedding of `zendesk/job.go`, `zendesk/organization.go`,
`zendesk/user_field.go` and `zendesk/organization_field.go`.

* Go `string` and `[]byte` are `String`, `int`/`int64` are `Int`.
* A Go result `(T, error)` is a pair `T × Option GoError`; `none` is the nil error.
* Every operation also returns the list of calls it made, in order (`Event`).
* `context.Context` is only handed on to the dispatcher and is left out.
* The request dispatcher (`get`, `post`, `put`, `delete`, `postWithResponse`) and
  `addOptions` are not part of these files: the dispatcher is the `Client`
  parameter, `addOptions` a field of `Lib`.
-/

namespace Zendesk

/-! ## Data model -/

/-- JobStatus provides an "enumeration" for valid Job statuses (`type JobStatus string`). -/
abbrev JobStatus := String

def JobQueued : JobStatus := "queued"
def JobWorking : JobStatus := "working"
def JobFailed : JobStatus := "failed"
def JobCompleted : JobStatus := "completed"
def JobKilled : JobStatus := "killed"

/-- Terminal returns true if the status is terminal; ie, processing has completed. -/
def JobStatus.Terminal (s : JobStatus) : Bool :=
  if s = JobFailed ∨ s = JobCompleted ∨ s = JobKilled then true else false

/-- A parsed JSON text. A number keeps its literal, as the decoder's scanner does. -/
inductive JSON where
  | null : JSON
  | bool (b : Bool) : JSON
  | number (lit : String) : JSON
  | string (s : String) : JSON
  | array (elems : List JSON) : JSON
  | object (members : List (String × JSON)) : JSON

/-- The word `encoding/json` uses for a JSON value in an `UnmarshalTypeError`. -/
def JSON.kind : JSON → String
  | .null => "null"
  | .bool _ => "bool"
  | .number _ => "number"
  | .string _ => "string"
  | .array _ => "array"
  | .object _ => "object"

/-- The errors `json.Unmarshal` returns. -/
inductive JsonError where
  /-- The `*json.SyntaxError`: the body is not valid JSON. -/
  | invalid (offset : Nat) : JsonError
  /-- The `*json.UnmarshalTypeError`: a JSON value does not fit the Go type. -/
  | typeMismatch (value : String) (goType : String) : JsonError
  /-- An error returned by an `UnmarshalJSON` method (`time.Time`). -/
  | unmarshaler (msg : String) : JsonError
  deriving DecidableEq, Repr

/-- The part of `*http.Response` the operations can read. -/
structure Response where
  StatusCode : Int
  Status : String
  Header : List (String × String)
  deriving DecidableEq, Repr

def StatusOK : Int := 200
def StatusCreated : Int := 201

/-- Modelled from the spec: the `Error` struct, declared outside these files; it
"associates an HTTP response's status code and raw body with the call that produced it".
The field names are those of the composite literal in `CreateOrUpdateOrganization`. -/
structure Error where
  body : String
  resp : Response
  deriving DecidableEq, Repr

/-- A Go `error` value. -/
inductive GoError where
  /-- An error made outside these files (transport failure, encoding failure, ...). -/
  | other (msg : String) : GoError
  /-- A zendesk `Error`. -/
  | api (e : Error) : GoError
  /-- An error returned by `json.Unmarshal`. -/
  | json (e : JsonError) : GoError
  deriving DecidableEq, Repr

/-- A Go slice: nil or not, its length, and the written part of its backing array
(`store` may be longer than `len` after the slice was truncated). -/
structure Slice (α : Type) where
  isNil : Bool
  len : Nat
  store : List α

/-- The nil slice. -/
def Slice.nil {α : Type} : Slice α := { isNil := true, len := 0, store := [] }

/-- The elements of a slice, `s[0], ..., s[len(s)-1]`. -/
def Slice.toList {α : Type} (s : Slice α) : List α := s.store.take s.len

/-- A `time.Time`, kept as its RFC 3339 text. -/
structure Time where
  text : String
  deriving DecidableEq, Repr

/-- The zero `time.Time`. -/
def Time.zero : Time := { text := "0001-01-01T00:00:00Z" }

/-- Job is a Zendesk Job Status. `interface{}` values are kept as the JSON they were
decoded from; a nil pointer, map or slice is `none`. -/
structure Job where
  ID : String
  URL : String
  Status : JobStatus
  Total : Option Int
  Progress : Option Int
  Message : Option String
  Results : Option (List (List (String × JSON)))

/-- The zero value `Job{}`. -/
def Job.zero : Job :=
  { ID := "", URL := "", Status := "", Total := none, Progress := none, Message := none,
    Results := none }

/-- Organization is struct for organization payload. -/
structure Organization where
  ID : Int
  ExternalID : String
  URL : String
  Name : String
  DomainNames : Option (List String)
  GroupID : Int
  SharedTickets : Bool
  SharedComments : Bool
  Tags : Option (List String)
  CreatedAt : Time
  UpdatedAt : Time
  OrganizationFields : Option (List (String × JSON))

/-- The zero value `Organization{}`. -/
def Organization.zero : Organization :=
  { ID := 0, ExternalID := "", URL := "", Name := "", DomainNames := none, GroupID := 0,
    SharedTickets := false, SharedComments := false, Tags := none,
    CreatedAt := Time.zero, UpdatedAt := Time.zero, OrganizationFields := none }

/-- CustomFieldOption is struct for value of `custom_field_options`. -/
structure CustomFieldOption where
  ID : Int
  Name : String
  Position : Int
  RawName : String
  URL : String
  Value : String
  deriving DecidableEq, Repr

/-- CustomField describes custom fields for users and organizations. -/
structure CustomField where
  ID : Int
  URL : String
  Key : String
  /-- The field `Type` (a reserved word here). -/
  Type_ : String
  Title : String
  RawTitle : String
  Description : String
  RawDescription : String
  Position : Int
  Active : Bool
  System : Bool
  RegexpForValidation : String
  Tag : String
  CustomFieldOptions : Option (List CustomFieldOption)
  CreatedAt : Time
  UpdatedAt : Time
  deriving DecidableEq, Repr

/-- Modelled from the spec: `Page`, declared outside these files. It "holds opaque
next and previous locators (URLs or cursor tokens) and, where provided, a total-count
hint", sent as `{ "next_page": url|null, "previous_page": url|null, "count": int }`. -/
structure Page where
  PreviousPage : Option String
  NextPage : Option String
  Count : Int
  deriving DecidableEq, Repr

/-- The zero value `Page{}`. -/
def Page.zero : Page := { PreviousPage := none, NextPage := none, Count := 0 }

/-- Modelled from the spec: `PageOptions`, declared outside these files, the pagination
fields of a list request. No operation here reads its fields. -/
structure PageOptions where
  PerPage : Int
  Page : Int
  deriving DecidableEq, Repr

/-- CustomFieldListOptions provides pagination options for custom field lists. -/
structure CustomFieldListOptions where
  PageOptions : PageOptions
  deriving DecidableEq, Repr

/-- The zero value `CustomFieldListOptions{}`. -/
def CustomFieldListOptions.zero : CustomFieldListOptions :=
  { PageOptions := { PerPage := 0, Page := 0 } }

/-! ## Calls made by the operations -/

/-- The values the operations pass to `addOptions` as `opts interface{}`. -/
inductive Options where
  /-- The value `struct{}{}` (ListJobs, GetJob). -/
  | empty : Options
  /-- The struct with the one field `IDs string` tagged `json:"ids"` (GetJobs). -/
  | ids (IDs : String) : Options
  /-- A `*CustomFieldListOptions`; `none` is the nil pointer. -/
  | customFieldList (p : Option CustomFieldListOptions) : Options
  deriving DecidableEq, Repr

/-- Modelled from the spec: the request option `expectStatus(code)`, declared outside
these files: the "accepted status ... explicitly overridden". -/
inductive RequestOption where
  | expectStatus (code : Int) : RequestOption
  deriving DecidableEq, Repr

/-- Modelled from the spec: the status a request accepts. "Default accepted status is
the method's conventional success code (200 for GET/PUT/DELETE, 201 for POST) unless
explicitly overridden." -/
def acceptedStatus (conventional : Int) : List RequestOption → Int
  | [] => conventional
  | RequestOption.expectStatus code :: rest => acceptedStatus code rest

/-- The request bodies the operations hand to the dispatcher. -/
inductive Payload where
  /-- The struct with the one field `Organization Organization` tagged `json:"organization"`. -/
  | organization (Organization : Organization) : Payload
  /-- The struct with the one field `Organizations []Organization` tagged
  `json:"organizations"`. -/
  | organizations (Organizations : List Organization) : Payload

/-- The JSON key of the one field of a request body. -/
def Payload.key : Payload → String
  | .organization _ => "organization"
  | .organizations _ => "organizations"

/-- One call made by an operation. -/
inductive Event where
  | addOptions (s : String) (opts : Options) : Event
  | get (path : String) : Event
  | post (path : String) (data : Payload) (opts : List RequestOption) : Event
  | postWithResponse (path : String) (data : Payload) : Event
  | put (path : String) (data : Payload) : Event
  | delete (path : String) : Event
  | unmarshal (data : String) : Event

/-- Whether a call is a request sent by the dispatcher. -/
def Event.isRequest : Event → Bool
  | .get _ => true
  | .post _ _ _ => true
  | .postWithResponse _ _ => true
  | .put _ _ => true
  | .delete _ => true
  | .addOptions _ _ => false
  | .unmarshal _ => false

/-- Whether a call is a `json.Unmarshal`. -/
def Event.isUnmarshal : Event → Bool
  | .unmarshal _ => true
  | _ => false

/-- The request dispatcher of `*Client`: what each method returns for its arguments.
`post` takes the variadic request options; `delete` returns only an error. -/
structure Client where
  get : String → Except GoError String
  post : String → Payload → List RequestOption → Except GoError String
  put : String → Payload → Except GoError String
  delete : String → Option GoError
  postWithResponse : String → Payload → Except GoError (String × Response)

/-! ## encoding/json -/

/-- A decoder stores a JSON value into a Go value. It is given the decoder's
`savedError` and returns the new value and `savedError`, or the error that aborts
decoding. -/
abbrev Decoder (α : Type) :=
  JSON → α → Option JsonError → Except JsonError (α × Option JsonError)

/-- The decoder's `saveError`: only the first error is kept. -/
def saveError (saved : Option JsonError) (e : JsonError) : Option JsonError :=
  match saved with
  | none => some e
  | some s => some s

/-- The smallest rune of the case-folding orbit of `c`, for the orbits that hold an
ASCII letter: a-z fold to A-Z, U+017F to S and U+212A to K. -/
def foldRune (c : Char) : Char :=
  if 97 ≤ c.toNat ∧ c.toNat ≤ 122 then Char.ofNat (c.toNat - 32)
  else if c.toNat = 0x17F then Char.ofNat 83
  else if c.toNat = 0x212A then Char.ofNat 75
  else c

/-- The folded name under which a field is found when no field has the exact name. -/
def foldName (s : String) : List Char := s.data.map foldRune

/-- A field of a struct: its JSON name and the decoder storing into it. -/
structure Field (α : Type) where
  name : String
  store : Decoder α

/-- The field a key is stored in: the field of that exact name, else the first field
with the same folded name. -/
def findField {α : Type} (fields : List (Field α)) (key : String) : Option (Field α) :=
  match fields.find? (fun f => f.name == key) with
  | some f => some f
  | none => fields.find? (fun f => foldName f.name == foldName key)

/-- Decoding of the members of a JSON object into a struct, in the order of the text.
A key without a field is skipped. -/
def decodeMembers {α : Type} (fields : List (Field α)) :
    List (String × JSON) → α → Option JsonError → Except JsonError (α × Option JsonError)
  | [], v, saved => .ok (v, saved)
  | (key, j) :: rest, v, saved =>
    match findField fields key with
    | none => decodeMembers fields rest v saved
    | some f =>
      match f.store j v saved with
      | .error e => .error e
      | .ok (v1, saved1) => decodeMembers fields rest v1 saved1

/-- Decoding into a struct: an object is stored member by member, null leaves the
struct as it is, any other value is a saved `UnmarshalTypeError`. -/
def decodeStruct {α : Type} (goType : String) (fields : List (Field α)) : Decoder α
  | .object members, v, saved => decodeMembers fields members v saved
  | .null, v, saved => .ok (v, saved)
  | j, v, saved => .ok (v, saveError saved (JsonError.typeMismatch j.kind goType))

/-- Decoding of the elements of a JSON array: element i is decoded into slot i of the
backing array, or into a zero value where the backing array has no such slot. -/
def decodeElems {α : Type} (zero : α) (elem : Decoder α) :
    List JSON → List α → Option JsonError → Except JsonError (List α × Option JsonError)
  | [], _, saved => .ok ([], saved)
  | j :: rest, store, saved =>
    match elem j (store.headD zero) saved with
    | .error e => .error e
    | .ok (v, saved1) =>
      match decodeElems zero elem rest store.tail saved1 with
      | .error e => .error e
      | .ok (vs, saved2) => .ok (v :: vs, saved2)

/-- Decoding into a slice: an array sets the length to the number of elements (an empty
array gives a fresh empty slice), null gives the nil slice, any other value is a saved
`UnmarshalTypeError`. -/
def decodeSlice {α : Type} (goType : String) (zero : α) (elem : Decoder α) :
    Decoder (Slice α)
  | .array elems, v, saved =>
    match decodeElems zero elem elems v.store saved with
    | .error e => .error e
    | .ok (vs, saved1) =>
      match elems with
      | [] => .ok ({ isNil := false, len := 0, store := [] }, saved1)
      | _ :: _ =>
        .ok ({ isNil := false, len := elems.length,
               store := vs ++ v.store.drop elems.length }, saved1)
  | .null, _, saved => .ok (Slice.nil, saved)
  | j, v, saved => .ok (v, saveError saved (JsonError.typeMismatch j.kind goType))

/-- The value of a decimal digit string; `none` when it is empty or has another
character. -/
def parseDigits : List Char → Option Nat
  | [] => none
  | cs => cs.foldl
      (fun acc c =>
        match acc with
        | none => none
        | some n => if c.isDigit then some (n * 10 + (c.toNat - 48)) else none)
      (some 0)

/-- The `strconv.ParseInt(lit, 10, 64)` of a JSON number literal. -/
def parseInt64 (lit : String) : Option Int :=
  let r : Option Int :=
    match lit.data with
    | [] => none
    | c :: cs =>
      if c = Char.ofNat 45 then (parseDigits cs).map (fun n => - (n : Int))
      else (parseDigits (c :: cs)).map (fun n => (n : Int))
  match r with
  | none => none
  | some n => if (-9223372036854775808 : Int) ≤ n ∧ n ≤ 9223372036854775807 then some n else none

/-- Decoding into an `int64`. -/
def decodeInt64 : Decoder Int
  | .number lit, v, saved =>
    match parseInt64 lit with
    | some n => .ok (n, saved)
    | none => .ok (v, saveError saved (JsonError.typeMismatch ("number " ++ lit) "int64"))
  | .null, v, saved => .ok (v, saved)
  | j, v, saved => .ok (v, saveError saved (JsonError.typeMismatch j.kind "int64"))

/-- Decoding into a `*string`: null gives the nil pointer, any other value a pointer
(allocated before the value is looked at). -/
def decodeStringPtr : Decoder (Option String)
  | .string s, _, saved => .ok (some s, saved)
  | .null, _, saved => .ok (none, saved)
  | j, v, saved =>
    .ok (some (v.getD ""), saveError saved (JsonError.typeMismatch j.kind "string"))

/-- Modelled from the spec: the JSON fields of `Page`, declared outside these files:
`{ "next_page": url|null, "previous_page": url|null, "count": int }`. -/
def pageFields : List (Field Page) :=
  [ { name := "previous_page",
      store := fun j p saved =>
        (decodeStringPtr j p.PreviousPage saved).map
          (fun r => ({ p with PreviousPage := r.1 }, r.2)) },
    { name := "next_page",
      store := fun j p saved =>
        (decodeStringPtr j p.NextPage saved).map
          (fun r => ({ p with NextPage := r.1 }, r.2)) },
    { name := "count",
      store := fun j p saved =>
        (decodeInt64 j p.Count saved).map (fun r => ({ p with Count := r.1 }, r.2)) } ]

/-- Functions the operations call that are defined outside these files: `addOptions`
of this package, and from `encoding/json` the parsing of a text and the decoders of
the payload types. -/
structure Lib where
  addOptions : String → Options → Except GoError String
  parse : String → Except JsonError JSON
  decodeJob : Decoder Job
  decodeOrganization : Decoder Organization
  decodeCustomField : Decoder CustomField

/-- The call `json.Unmarshal(data, &v)`: the text is checked first, then stored; an
aborting error comes before a saved one. What `v` holds after an error is not
modelled (no operation reads it). -/
def Unmarshal {α : Type} (lib : Lib) (dec : Decoder α) (data : String) (v : α) :
    Except JsonError α :=
  match lib.parse data with
  | .error e => .error e
  | .ok j =>
    match dec j v none with
    | .error e => .error e
    | .ok (_, some e) => .error e
    | .ok (v1, none) => .ok v1

/-- Decoder of a struct whose one field is a `Job` tagged `json:"job_status"`; the
struct is represented by the value of its field. -/
def jobStatusData (lib : Lib) : Decoder Job :=
  decodeStruct "struct" [{ name := "job_status", store := lib.decodeJob }]

/-- Decoder of a struct whose one field is a `[]Job` tagged `json:"job_statuses"`. -/
def jobStatusesData (lib : Lib) : Decoder (Slice Job) :=
  decodeStruct "struct"
    [{ name := "job_statuses", store := decodeSlice "[]zendesk.Job" Job.zero lib.decodeJob }]

/-- Decoder of a struct whose one field is an `Organization` tagged
`json:"organization"`. -/
def organizationData (lib : Lib) : Decoder Organization :=
  decodeStruct "struct" [{ name := "organization", store := lib.decodeOrganization }]

/-- Decoder of a struct whose one field is a `[]Organization` tagged
`json:"organizations"`. -/
def organizationsData (lib : Lib) : Decoder (Slice Organization) :=
  decodeStruct "struct"
    [{ name := "organizations",
       store := decodeSlice "[]zendesk.Organization" Organization.zero
         lib.decodeOrganization }]

/-- The zero value `CustomField{}`. -/
def CustomField.zero : CustomField :=
  { ID := 0, URL := "", Key := "", Type_ := "", Title := "", RawTitle := "",
    Description := "", RawDescription := "", Position := 0, Active := false,
    System := false, RegexpForValidation := "", Tag := "", CustomFieldOptions := none,
    CreatedAt := Time.zero, UpdatedAt := Time.zero }

/-- The struct `data` of GetUserFields and GetOrganizationFields: a `[]CustomField`
(`UserFields` or `OrganizationFields`) and the embedded `Page`. -/
structure FieldsData where
  Fields : Slice CustomField
  Page : Page

/-- The zero value of `FieldsData`. -/
def FieldsData.zero : FieldsData := { Fields := Slice.nil, Page := Page.zero }

/-- Decoder of `FieldsData`; `key` is the tag of the slice (`user_fields` or
`organization_fields`). The fields of the embedded `Page` follow it. -/
def fieldsData (lib : Lib) (key : String) : Decoder FieldsData :=
  decodeStruct "struct"
    ({ name := key,
       store := fun j d saved =>
         (decodeSlice "[]zendesk.CustomField" CustomField.zero lib.decodeCustomField
            j d.Fields saved).map (fun r => ({ d with Fields := r.1 }, r.2)) } ::
     pageFields.map (fun f =>
       { name := f.name,
         store := fun j d saved =>
           (f.store j d.Page saved).map (fun r => ({ d with Page := r.1 }, r.2)) }))

/-! ## net/url -/

/-- The bytes of a Go string. -/
def utf8Bytes (s : String) : List UInt8 := s.data.flatMap String.utf8EncodeChar

/-- The string made of ASCII bytes. -/
def asciiString (bs : List UInt8) : String := String.mk (bs.map (fun b => Char.ofNat b.toNat))

/-- The `shouldEscape(c, encodeQueryComponent)` of `net/url`: everything is escaped but
letters, digits and `-`, `_`, `.`, `~`. -/
def shouldEscape (c : UInt8) : Bool :=
  if (97 ≤ c ∧ c ≤ 122) ∨ (65 ≤ c ∧ c ≤ 90) ∨ (48 ≤ c ∧ c ≤ 57) then false
  else if c = 45 ∨ c = 95 ∨ c = 46 ∨ c = 126 then false
  else true

/-- The byte `"0123456789ABCDEF"[n]`. -/
def upperhex (n : UInt8) : UInt8 := if n < 10 then 48 + n else 55 + n

/-- The escaped form of one byte: itself, `+` for a space, else `%XX`. -/
def escapeByte (c : UInt8) : List UInt8 :=
  if shouldEscape c then
    if c = 32 then [43] else [37, upperhex (c >>> 4), upperhex (c &&& 15)]
  else [c]

/-- The function `url.QueryEscape`. -/
def QueryEscape (s : String) : String := asciiString ((utf8Bytes s).flatMap escapeByte)

def ishex (c : UInt8) : Bool :=
  if (48 ≤ c ∧ c ≤ 57) ∨ (97 ≤ c ∧ c ≤ 102) ∨ (65 ≤ c ∧ c ≤ 70) then true else false

def unhex (c : UInt8) : UInt8 :=
  if 48 ≤ c ∧ c ≤ 57 then c - 48
  else if 97 ≤ c ∧ c ≤ 102 then c - 97 + 10
  else if 65 ≤ c ∧ c ≤ 70 then c - 65 + 10
  else 0

/-- The unescaping of `url.QueryUnescape` on bytes: `%XX` is one byte, `+` a space; a
`%` not followed by two hex digits is an error. -/
def unescapeBytes : List UInt8 → Option (List UInt8)
  | [] => some []
  | c :: rest =>
    if c = 37 then
      match rest with
      | a :: b :: rest2 =>
        if ishex a ∧ ishex b then
          (unescapeBytes rest2).map (fun t => ((unhex a <<< 4) ||| unhex b) :: t)
        else none
      | _ => none
    else if c = 43 then (unescapeBytes rest).map (fun t => 32 :: t)
    else (unescapeBytes rest).map (fun t => c :: t)

/-- The function `url.QueryUnescape`; the result is given as bytes. -/
def QueryUnescape (s : String) : Option (List UInt8) := unescapeBytes (utf8Bytes s)

/-- The type `url.Values` (`map[string][]string`), one entry per key. -/
abbrev Values := List (String × List String)

/-- The method `Values.Add`: appends the value to the values of the key. -/
def Values.Add : Values → String → String → Values
  | [], key, value => [(key, [value])]
  | (k, vs) :: rest, key, value =>
    if k = key then (k, vs ++ [value]) :: rest else (k, vs) :: Values.Add rest key value

/-- Insertion of an entry before the first entry with a greater key. -/
def Values.insertSorted (e : String × List String) : Values → Values
  | [] => [e]
  | x :: rest => if e.1 < x.1 then e :: x :: rest else x :: Values.insertSorted e rest

/-- The entries sorted by key. -/
def Values.sorted : Values → Values
  | [] => []
  | e :: rest => Values.insertSorted e (Values.sorted rest)

/-- The method `Values.Encode`: `key=value` pairs, both escaped, sorted by key and
joined by `&`. -/
def Values.Encode (v : Values) : String :=
  String.intercalate "&"
    ((Values.sorted v).flatMap (fun e =>
      e.2.map (fun value => QueryEscape e.1 ++ "=" ++ QueryEscape value)))

/-! ## job.go -/

/-- ListJobs returns all running Jobs from Zendesk. -/
def ListJobs (lib : Lib) (z : Client) : List Event × Slice Job × Option GoError :=
  match lib.addOptions "/job_statuses.json" Options.empty with
  | .error err => ([Event.addOptions "/job_statuses.json" Options.empty], Slice.nil, some err)
  | .ok u =>
    match z.get u with
    | .error err =>
      ([Event.addOptions "/job_statuses.json" Options.empty, Event.get u], Slice.nil, some err)
    | .ok body =>
      match Unmarshal lib (jobStatusesData lib) body Slice.nil with
      | .error err =>
        ([Event.addOptions "/job_statuses.json" Options.empty, Event.get u,
          Event.unmarshal body], Slice.nil, some (GoError.json err))
      | .ok data =>
        ([Event.addOptions "/job_statuses.json" Options.empty, Event.get u,
          Event.unmarshal body], data, none)

/-- GetJob returns the status of a background job. -/
def GetJob (lib : Lib) (z : Client) (id : String) : List Event × Job × Option GoError :=
  let s := "/job_statuses/" ++ id ++ ".json"
  match lib.addOptions s Options.empty with
  | .error err => ([Event.addOptions s Options.empty], Job.zero, some err)
  | .ok u =>
    match z.get u with
    | .error err => ([Event.addOptions s Options.empty, Event.get u], Job.zero, some err)
    | .ok body =>
      match Unmarshal lib (jobStatusData lib) body Job.zero with
      | .error err =>
        ([Event.addOptions s Options.empty, Event.get u, Event.unmarshal body],
          Job.zero, some (GoError.json err))
      | .ok data =>
        ([Event.addOptions s Options.empty, Event.get u, Event.unmarshal body], data, none)

/-- GetJobs returns the status of one or more background jobs. -/
def GetJobs (lib : Lib) (z : Client) (ids : List String) :
    List Event × Slice Job × Option GoError :=
  let opts := Options.ids (String.intercalate "," ids)
  match lib.addOptions "/job_statuses/show_many.json" opts with
  | .error err => ([Event.addOptions "/job_statuses/show_many.json" opts], Slice.nil, some err)
  | .ok u =>
    match z.get u with
    | .error err =>
      ([Event.addOptions "/job_statuses/show_many.json" opts, Event.get u], Slice.nil, some err)
    | .ok body =>
      match Unmarshal lib (jobStatusesData lib) body Slice.nil with
      | .error err =>
        ([Event.addOptions "/job_statuses/show_many.json" opts, Event.get u,
          Event.unmarshal body], Slice.nil, some (GoError.json err))
      | .ok data =>
        ([Event.addOptions "/job_statuses/show_many.json" opts, Event.get u,
          Event.unmarshal body], data, none)

/-! ## organization.go -/

/-- CreateOrganization creates new organization. -/
def CreateOrganization (lib : Lib) (z : Client) (org : Organization) :
    List Event × Organization × Option GoError :=
  let data := Payload.organization org
  match z.post "/organizations.json" data [] with
  | .error err => ([Event.post "/organizations.json" data []], Organization.zero, some err)
  | .ok body =>
    match Unmarshal lib (organizationData lib) body Organization.zero with
    | .error err =>
      ([Event.post "/organizations.json" data [], Event.unmarshal body],
        Organization.zero, some (GoError.json err))
    | .ok result =>
      ([Event.post "/organizations.json" data [], Event.unmarshal body], result, none)

/-- GetOrganization gets a specified organization. -/
def GetOrganization (lib : Lib) (z : Client) (orgID : Int) :
    List Event × Organization × Option GoError :=
  let path := "/organizations/" ++ toString orgID ++ ".json"
  match z.get path with
  | .error err => ([Event.get path], Organization.zero, some err)
  | .ok body =>
    match Unmarshal lib (organizationData lib) body Organization.zero with
    | .error err =>
      ([Event.get path, Event.unmarshal body], Organization.zero, some (GoError.json err))
    | .ok result => ([Event.get path, Event.unmarshal body], result, none)

/-- GetOrganizations retrieves one or more organizations by their IDs. -/
def GetOrganizations (lib : Lib) (z : Client) (orgIDs : List Int) :
    List Event × Slice Organization × Option GoError :=
  let ids := orgIDs.map (fun id => toString id)
  let query := Values.Add [] "ids" (String.intercalate "," ids)
  let path := "/organizations/show_many.json?" ++ Values.Encode query
  match z.get path with
  | .error err => ([Event.get path], Slice.nil, some err)
  | .ok body =>
    match Unmarshal lib (organizationsData lib) body Slice.nil with
    | .error err =>
      ([Event.get path, Event.unmarshal body], Slice.nil, some (GoError.json err))
    | .ok result => ([Event.get path, Event.unmarshal body], result, none)

/-- GetOrganizationsByExternalID retrieves one or more organization by their External
IDs. -/
def GetOrganizationsByExternalID (lib : Lib) (z : Client) (externalOrgIds : List Int) :
    List Event × Slice Organization × Option GoError :=
  let ids := externalOrgIds.map (fun id => toString id)
  let query := Values.Add [] "external_ids" (String.intercalate "," ids)
  let path := "/organizations/show_many.json?" ++ Values.Encode query
  match z.get path with
  | .error err => ([Event.get path], Slice.nil, some err)
  | .ok body =>
    match Unmarshal lib (organizationsData lib) body Slice.nil with
    | .error err =>
      ([Event.get path, Event.unmarshal body], Slice.nil, some (GoError.json err))
    | .ok result => ([Event.get path, Event.unmarshal body], result, none)

/-- UpdateOrganization updates a organization with the specified organization. -/
def UpdateOrganization (lib : Lib) (z : Client) (orgID : Int) (org : Organization) :
    List Event × Organization × Option GoError :=
  let data := Payload.organization org
  let path := "/organizations/" ++ toString orgID ++ ".json"
  match z.put path data with
  | .error err => ([Event.put path data], Organization.zero, some err)
  | .ok body =>
    match Unmarshal lib (organizationData lib) body Organization.zero with
    | .error err =>
      ([Event.put path data, Event.unmarshal body], Organization.zero,
        some (GoError.json err))
    | .ok result => ([Event.put path data, Event.unmarshal body], result, none)

/-- CreateOrUpdateOrganization either updates an existing organization or creates a new
one. It returns the organization and a boolean flag that is true if the org is newly
created. -/
def CreateOrUpdateOrganization (lib : Lib) (z : Client) (org : Organization) :
    List Event × Organization × Bool × Option GoError :=
  let data := Payload.organization org
  let path := "/organizations/create_or_update.json"
  match z.postWithResponse path data with
  | .error err => ([Event.postWithResponse path data], Organization.zero, false, some err)
  | .ok (body, resp) =>
    if resp.StatusCode ≠ StatusOK ∧ resp.StatusCode ≠ StatusCreated then
      ([Event.postWithResponse path data], Organization.zero, false,
        some (GoError.api { body := body, resp := resp }))
    else
      match Unmarshal lib (organizationData lib) body Organization.zero with
      | .error err =>
        ([Event.postWithResponse path data, Event.unmarshal body], Organization.zero,
          false, some (GoError.json err))
      | .ok result =>
        ([Event.postWithResponse path data, Event.unmarshal body], result,
          decide (resp.StatusCode = StatusCreated), none)

/-- DeleteOrganization deletes the specified organization. -/
def DeleteOrganization (z : Client) (orgID : Int) : List Event × Option GoError :=
  let path := "/organizations/" ++ toString orgID ++ ".json"
  match z.delete path with
  | some err => ([Event.delete path], some err)
  | none => ([Event.delete path], none)

/-- UpdateManyOrganizations updates up to 100 organizations with a single request via a
background job. -/
def UpdateManyOrganizations (lib : Lib) (z : Client) (organizations : List Organization) :
    List Event × Job × Option GoError :=
  let data := Payload.organizations organizations
  let opts := [RequestOption.expectStatus StatusOK]
  match z.post "/organizations/update_many.json" data opts with
  | .error err =>
    ([Event.post "/organizations/update_many.json" data opts], Job.zero, some err)
  | .ok body =>
    match Unmarshal lib (jobStatusData lib) body Job.zero with
    | .error err =>
      ([Event.post "/organizations/update_many.json" data opts, Event.unmarshal body],
        Job.zero, some (GoError.json err))
    | .ok result =>
      ([Event.post "/organizations/update_many.json" data opts, Event.unmarshal body],
        result, none)

/-! ## user_field.go, organization_field.go -/

/-- GetUserFields returns the list of custom fields for Users. -/
def GetUserFields (lib : Lib) (z : Client) (opts : Option CustomFieldListOptions) :
    List Event × Slice CustomField × Page × Option GoError :=
  let tmp : Option CustomFieldListOptions :=
    match opts with
    | none => some CustomFieldListOptions.zero
    | some o => some o
  let o := Options.customFieldList tmp
  match lib.addOptions "/user_fields.json" o with
  | .error err => ([Event.addOptions "/user_fields.json" o], Slice.nil, Page.zero, some err)
  | .ok u =>
    match z.get u with
    | .error err =>
      ([Event.addOptions "/user_fields.json" o, Event.get u], Slice.nil, Page.zero, some err)
    | .ok body =>
      match Unmarshal lib (fieldsData lib "user_fields") body FieldsData.zero with
      | .error err =>
        ([Event.addOptions "/user_fields.json" o, Event.get u, Event.unmarshal body],
          Slice.nil, Page.zero, some (GoError.json err))
      | .ok data =>
        ([Event.addOptions "/user_fields.json" o, Event.get u, Event.unmarshal body],
          data.Fields, data.Page, none)

/-- GetOrganizationFields returns the list of custom fields for organizations. -/
def GetOrganizationFields (lib : Lib) (z : Client) (opts : Option CustomFieldListOptions) :
    List Event × Slice CustomField × Page × Option GoError :=
  let tmp : Option CustomFieldListOptions :=
    match opts with
    | none => some CustomFieldListOptions.zero
    | some o => some o
  let o := Options.customFieldList tmp
  match lib.addOptions "/organization_fields.json" o with
  | .error err =>
    ([Event.addOptions "/organization_fields.json" o], Slice.nil, Page.zero, some err)
  | .ok u =>
    match z.get u with
    | .error err =>
      ([Event.addOptions "/organization_fields.json" o, Event.get u], Slice.nil, Page.zero,
        some err)
    | .ok body =>
      match Unmarshal lib (fieldsData lib "organization_fields") body FieldsData.zero with
      | .error err =>
        ([Event.addOptions "/organization_fields.json" o, Event.get u,
          Event.unmarshal body], Slice.nil, Page.zero, some (GoError.json err))
      | .ok data =>
        ([Event.addOptions "/organization_fields.json" o, Event.get u,
          Event.unmarshal body], data.Fields, data.Page, none)

/-! ## Field names -/

/-- Whether a key of a JSON object is stored in the field of the given JSON name. -/
def keyMatches (name key : String) : Bool :=
  name == key || foldName name == foldName key

/-- Whether a key of a JSON object is stored in one of the fields of the given names. -/
def hasField (names : List String) (key : String) : Bool :=
  names.any (fun n => keyMatches n key)

/-- The members of a JSON object that are stored in the field of the given name. -/
def membersFor (name : String) (members : List (String × JSON)) : List (String × JSON) :=
  members.filter (fun m => keyMatches name m.1)

/-- The requests among the calls of an operation. -/
def requests (calls : List Event) : List Event := calls.filter Event.isRequest

/-! ## A sample library and sample dispatchers

Used by the examples: decoders for the payload types written with the struct decoder
above, a table of parsed bodies, and dispatchers that give one fixed answer. -/

/-- Decoding into a `string`. -/
def decodeString : Decoder String
  | .string s, _, saved => .ok (s, saved)
  | .null, v, saved => .ok (v, saved)
  | j, v, saved => .ok (v, saveError saved (JsonError.typeMismatch j.kind "string"))

/-- Decoding into a `bool`. -/
def decodeBool : Decoder Bool
  | .bool b, _, saved => .ok (b, saved)
  | .null, v, saved => .ok (v, saved)
  | j, v, saved => .ok (v, saveError saved (JsonError.typeMismatch j.kind "bool"))

/-- Decoding into a `*int`. -/
def decodeIntPtr : Decoder (Option Int)
  | .null, _, saved => .ok (none, saved)
  | j, v, saved => (decodeInt64 j (v.getD 0) saved).map (fun r => (some r.1, r.2))

/-- Decoding into a slice that is a field of a payload struct, kept as an optional list. -/
def decodeList {α : Type} (goType : String) (zero : α) (elem : Decoder α) :
    Decoder (Option (List α)) :=
  fun j v saved =>
    let cur : Slice α :=
      match v with
      | none => Slice.nil
      | some l => { isNil := false, len := l.length, store := l }
    (decodeSlice goType zero elem j cur saved).map
      (fun r => (if r.1.isNil then none else some r.1.toList, r.2))

/-- Decoding into an `interface{}`: the value is kept as it is. -/
def decodeAny : Decoder JSON
  | j, _, saved => .ok (j, saved)

/-- The map with `key` set to `value`. -/
def mapSet (key : String) (value : JSON) : List (String × JSON) → List (String × JSON)
  | [] => [(key, value)]
  | (k, v) :: rest => if k = key then (k, value) :: rest else (k, v) :: mapSet key value rest

/-- Decoding into a `map[string]interface{}`. -/
def decodeAnyMap : Decoder (Option (List (String × JSON)))
  | .object members, v, saved =>
    .ok (some (members.foldl (fun m kv => mapSet kv.1 kv.2 m) (v.getD [])), saved)
  | .null, _, saved => .ok (none, saved)
  | j, v, saved =>
    .ok (v, saveError saved (JsonError.typeMismatch j.kind "map[string]interface {}"))

/-- Whether a text has the form `dddd-dd-ddTdd:dd:ddZ`, the form Zendesk sends. -/
def sampleTimeForm (s : String) : Bool :=
  s.length = 20 ∧
  (s.data.zip "dddd-dd-ddTdd:dd:ddZ".data).all
    (fun p => if p.2 = Char.ofNat 100 then p.1.isDigit else p.1 = p.2)

/-- Decoding into a `time.Time` (its `UnmarshalJSON`), for the texts of `sampleTimeForm`;
an error of `UnmarshalJSON` aborts decoding. -/
def sampleDecodeTime : Decoder Time
  | .null, v, saved => .ok (v, saved)
  | .string s, _, saved =>
    if sampleTimeForm s then .ok ({ text := s }, saved)
    else .error (JsonError.unmarshaler "parsing time")
  | _, _, _ => .error (JsonError.unmarshaler "Time.UnmarshalJSON: input is not a JSON string")

/-- A field of a struct, from its JSON name, how it is read and written, and the
decoder of its type. -/
def field {α β : Type} (name : String) (get : α → β) (set : α → β → α) (dec : Decoder β) :
    Field α :=
  { name := name,
    store := fun j v saved => (dec j (get v) saved).map (fun r => (set v r.1, r.2)) }

/-- Sample decoder of `Job`, from its struct tags. -/
def sampleDecodeJob : Decoder Job :=
  decodeStruct "zendesk.Job"
    [ field "id" (fun v => v.ID) (fun v x => { v with ID := x }) decodeString,
      field "url" (fun v => v.URL) (fun v x => { v with URL := x }) decodeString,
      field "status" (fun v => v.Status) (fun v x => { v with Status := x }) decodeString,
      field "total" (fun v => v.Total) (fun v x => { v with Total := x }) decodeIntPtr,
      field "progress" (fun v => v.Progress) (fun v x => { v with Progress := x })
        decodeIntPtr,
      field "message" (fun v => v.Message) (fun v x => { v with Message := x })
        decodeStringPtr,
      field "results" (fun v => v.Results) (fun v x => { v with Results := x })
        (decodeList "[]map[string]interface {}" []
          (fun j m saved =>
            (decodeAnyMap j (some m) saved).map (fun r => (r.1.getD [], r.2)))) ]

/-- Sample decoder of `Organization`, from its struct tags. -/
def sampleDecodeOrganization : Decoder Organization :=
  decodeStruct "zendesk.Organization"
    [ field "id" (fun v => v.ID) (fun v x => { v with ID := x }) decodeInt64,
      field "external_id" (fun v => v.ExternalID) (fun v x => { v with ExternalID := x })
        decodeString,
      field "url" (fun v => v.URL) (fun v x => { v with URL := x }) decodeString,
      field "name" (fun v => v.Name) (fun v x => { v with Name := x }) decodeString,
      field "domain_names" (fun v => v.DomainNames) (fun v x => { v with DomainNames := x })
        (decodeList "[]string" "" decodeString),
      field "group_id" (fun v => v.GroupID) (fun v x => { v with GroupID := x }) decodeInt64,
      field "shared_tickets" (fun v => v.SharedTickets)
        (fun v x => { v with SharedTickets := x }) decodeBool,
      field "shared_comments" (fun v => v.SharedComments)
        (fun v x => { v with SharedComments := x }) decodeBool,
      field "tags" (fun v => v.Tags) (fun v x => { v with Tags := x })
        (decodeList "[]string" "" decodeString),
      field "created_at" (fun v => v.CreatedAt) (fun v x => { v with CreatedAt := x })
        sampleDecodeTime,
      field "updated_at" (fun v => v.UpdatedAt) (fun v x => { v with UpdatedAt := x })
        sampleDecodeTime,
      field "organization_fields" (fun v => v.OrganizationFields)
        (fun v x => { v with OrganizationFields := x }) decodeAnyMap ]

/-- The zero value `CustomFieldOption{}`. -/
def CustomFieldOption.zero : CustomFieldOption :=
  { ID := 0, Name := "", Position := 0, RawName := "", URL := "", Value := "" }

/-- Sample decoder of `CustomFieldOption`, from its struct tags. -/
def sampleDecodeCustomFieldOption : Decoder CustomFieldOption :=
  decodeStruct "zendesk.CustomFieldOption"
    [ field "id" (fun v => v.ID) (fun v x => { v with ID := x }) decodeInt64,
      field "name" (fun v => v.Name) (fun v x => { v with Name := x }) decodeString,
      field "position" (fun v => v.Position) (fun v x => { v with Position := x })
        decodeInt64,
      field "raw_name" (fun v => v.RawName) (fun v x => { v with RawName := x })
        decodeString,
      field "url" (fun v => v.URL) (fun v x => { v with URL := x }) decodeString,
      field "value" (fun v => v.Value) (fun v x => { v with Value := x }) decodeString ]

/-- Sample decoder of `CustomField`, from its struct tags. -/
def sampleDecodeCustomField : Decoder CustomField :=
  decodeStruct "zendesk.CustomField"
    [ field "id" (fun v => v.ID) (fun v x => { v with ID := x }) decodeInt64,
      field "url" (fun v => v.URL) (fun v x => { v with URL := x }) decodeString,
      field "key" (fun v => v.Key) (fun v x => { v with Key := x }) decodeString,
      field "type" (fun v => v.Type_) (fun v x => { v with Type_ := x }) decodeString,
      field "title" (fun v => v.Title) (fun v x => { v with Title := x }) decodeString,
      field "raw_title" (fun v => v.RawTitle) (fun v x => { v with RawTitle := x })
        decodeString,
      field "description" (fun v => v.Description)
        (fun v x => { v with Description := x }) decodeString,
      field "raw_description" (fun v => v.RawDescription)
        (fun v x => { v with RawDescription := x }) decodeString,
      field "position" (fun v => v.Position) (fun v x => { v with Position := x })
        decodeInt64,
      field "active" (fun v => v.Active) (fun v x => { v with Active := x }) decodeBool,
      field "system" (fun v => v.System) (fun v x => { v with System := x }) decodeBool,
      field "regexp_for_validation" (fun v => v.RegexpForValidation)
        (fun v x => { v with RegexpForValidation := x }) decodeString,
      field "tag" (fun v => v.Tag) (fun v x => { v with Tag := x }) decodeString,
      field "custom_field_options" (fun v => v.CustomFieldOptions)
        (fun v x => { v with CustomFieldOptions := x })
        (decodeList "[]zendesk.CustomFieldOption" CustomFieldOption.zero
          sampleDecodeCustomFieldOption),
      field "created_at" (fun v => v.CreatedAt) (fun v x => { v with CreatedAt := x })
        sampleDecodeTime,
      field "updated_at" (fun v => v.UpdatedAt) (fun v x => { v with UpdatedAt := x })
        sampleDecodeTime ]

/-- A body with no member: the text of an empty JSON object. -/
def emptyObjectBody : String := "\x7b\x7d"

/-- A body as the fixture `job.json`: a `job_status` object. -/
def sampleJobBody : String :=
  "\x7b\"job_status\":\x7b\"id\":\"e57bc8b851f93833d87748557c9b7e4b\",\"status\":\"completed\"\x7d\x7d"

/-- A body with a `job_statuses` array of two jobs. -/
def sampleJobsBody : String :=
  "\x7b\"job_statuses\":[\x7b\"id\":\"b\",\"status\":\"queued\"\x7d,\x7b\"id\":\"a\",\"status\":\"working\"\x7d]\x7d"

/-- A body with an `organization` object. -/
def sampleOrganizationBody : String :=
  "\x7b\"organization\":\x7b\"id\":7,\"name\":\"acme\"\x7d\x7d"

/-- A body that is not JSON. -/
def sampleHtmlBody : String := "<html>Bad Gateway</html>"

/-- The parse of the sample bodies; a text outside the table is answered as invalid. -/
def sampleParse (data : String) : Except JsonError JSON :=
  if data = emptyObjectBody then .ok (JSON.object [])
  else if data = sampleJobBody then
    .ok (JSON.object [("job_status", JSON.object
      [("id", JSON.string "e57bc8b851f93833d87748557c9b7e4b"),
       ("status", JSON.string "completed")])])
  else if data = sampleJobsBody then
    .ok (JSON.object [("job_statuses", JSON.array
      [JSON.object [("id", JSON.string "b"), ("status", JSON.string "queued")],
       JSON.object [("id", JSON.string "a"), ("status", JSON.string "working")]])])
  else if data = sampleOrganizationBody then
    .ok (JSON.object [("organization", JSON.object
      [("id", JSON.number "7"), ("name", JSON.string "acme")])])
  else .error (JsonError.invalid 1)

/-- A sample `addOptions`: the path itself, followed by the escaped `ids` when there
are some. -/
def sampleAddOptions (s : String) (opts : Options) : Except GoError String :=
  match opts with
  | Options.ids v => .ok (s ++ "?" ++ Values.Encode (Values.Add [] "ids" v))
  | _ => .ok s

/-- The sample library. -/
def sampleLib : Lib :=
  { addOptions := sampleAddOptions, parse := sampleParse, decodeJob := sampleDecodeJob,
    decodeOrganization := sampleDecodeOrganization,
    decodeCustomField := sampleDecodeCustomField }

/-- The sample library with an `addOptions` that fails. -/
def failingLib (e : GoError) : Lib :=
  { sampleLib with addOptions := fun _ _ => .error e }

/-- A dispatcher that answers every request with the given status and body, when the
status is the one the method accepts (and always for `postWithResponse`). -/
def answering (status : Int) (body : String) : Client :=
  { get := fun _ =>
      if status = acceptedStatus StatusOK [] then .ok body
      else .error (GoError.api { body := body, resp := { StatusCode := status, Status := "", Header := [] } }),
    post := fun _ _ opts =>
      if status = acceptedStatus StatusCreated opts then .ok body
      else .error (GoError.api { body := body, resp := { StatusCode := status, Status := "", Header := [] } }),
    put := fun _ _ =>
      if status = acceptedStatus StatusOK [] then .ok body
      else .error (GoError.api { body := body, resp := { StatusCode := status, Status := "", Header := [] } }),
    delete := fun _ =>
      if status = acceptedStatus StatusOK [] then none
      else some (GoError.api { body := body, resp := { StatusCode := status, Status := "", Header := [] } }),
    postWithResponse := fun _ _ =>
      .ok (body, { StatusCode := status, Status := "", Header := [] }) }

/-- A dispatcher whose every request fails with the given error. -/
def failing (e : GoError) : Client :=
  { get := fun _ => .error e, post := fun _ _ _ => .error e, put := fun _ _ => .error e,
    delete := fun _ => some e, postWithResponse := fun _ _ => .error e }

/-! ## Decode failures -/

/-- Whether a JSON value can be stored into a slice: an array or null. -/
def JSON.fitsSlice : JSON → Bool
  | .array _ => true
  | .null => true
  | _ => false

/-- A body whose `job_status` object has a readable `status` and an `id` that is a
number where a string is expected. -/
def sampleMistypedJobBody : String :=
  "\x7b\"job_status\":\x7b\"status\":\"completed\",\"id\":5\x7d\x7d"

/-- A body whose `organization_fields` is an object where an array is expected. -/
def sampleFieldsObjectBody : String :=
  "\x7b\"organization_fields\":\x7b\x7d,\"count\":3\x7d"

/-- The sample library, its table of parsed bodies extended by the two bodies above. -/
def mistypedLib : Lib :=
  { sampleLib with
    parse := fun data =>
      if data = sampleMistypedJobBody then
        .ok (JSON.object [("job_status", JSON.object
          [("status", JSON.string "completed"), ("id", JSON.number "5")])])
      else if data = sampleFieldsObjectBody then
        .ok (JSON.object [("organization_fields", JSON.object []),
          ("count", JSON.number "3")])
      else sampleParse data }

/-! ## The options pointer

`opts *CustomFieldListOptions` is a pointer. The operations above take the value it
points to (`none` for nil); here the same two operations take the pointer itself. -/

/-- The memory cells that hold `CustomFieldListOptions` values. A pointer is nil (`none`)
or the index of a cell. -/
abbrev OptionsMemory := List CustomFieldListOptions

/-- What is done with memory during a call. -/
inductive Access where
  /-- A new cell is allocated with a value (`&CustomFieldListOptions{}`). -/
  | alloc (cell : Nat) (value : CustomFieldListOptions) : Access
  /-- The value behind a pointer is read; `read none` is a nil dereference. -/
  | read (p : Option Nat) : Access
  /-- A value is written through a pointer. -/
  | write (p : Option Nat) (value : CustomFieldListOptions) : Access
  deriving DecidableEq, Repr

/-- The value a pointer points to; none for the nil pointer. -/
def OptionsMemory.load (mem : OptionsMemory) (p : Option Nat) :
    Option CustomFieldListOptions :=
  match p with
  | none => none
  | some cell => mem[cell]?

/-- GetUserFields with `opts` as a pointer: `tmp := opts`; when `tmp == nil` a cell with
the zero value is allocated and `tmp` points to it; `addOptions` is given `tmp` and reads
the value behind it; the rest is `GetUserFields` at that value. The result comes with
the memory after the call and the accesses made. -/
def GetUserFieldsAt (lib : Lib) (z : Client) (mem : OptionsMemory) (opts : Option Nat) :
    OptionsMemory × List Access ×
      (List Event × Slice CustomField × Page × Option GoError) :=
  let tmp := opts
  match tmp with
  | none =>
    let mem1 := mem ++ [CustomFieldListOptions.zero]
    let tmp1 := some mem.length
    (mem1, [Access.alloc mem.length CustomFieldListOptions.zero, Access.read tmp1],
      GetUserFields lib z (OptionsMemory.load mem1 tmp1))
  | some cell =>
    (mem, [Access.read (some cell)], GetUserFields lib z (OptionsMemory.load mem (some cell)))

/-- GetOrganizationFields with `opts` as a pointer, as `GetUserFieldsAt`. -/
def GetOrganizationFieldsAt (lib : Lib) (z : Client) (mem : OptionsMemory)
    (opts : Option Nat) :
    OptionsMemory × List Access ×
      (List Event × Slice CustomField × Page × Option GoError) :=
  let tmp := opts
  match tmp with
  | none =>
    let mem1 := mem ++ [CustomFieldListOptions.zero]
    let tmp1 := some mem.length
    (mem1, [Access.alloc mem.length CustomFieldListOptions.zero, Access.read tmp1],
      GetOrganizationFields lib z (OptionsMemory.load mem1 tmp1))
  | some cell =>
    (mem, [Access.read (some cell)],
      GetOrganizationFields lib z (OptionsMemory.load mem (some cell)))

/-! ## Theorems -/

/-! ### Lemmas on the struct decoder -/

theorem findField_single {α : Type} (f : Field α) (key : String) :
    findField [f] key = if keyMatches f.name key then some f else none := by
  unfold findField keyMatches
  by_cases h1 : (f.name == key) = true
  · simp [List.find?, h1]
  · by_cases h2 : (foldName f.name == foldName key) = true
    · simp [List.find?, h1, h2]
    · simp [List.find?, h1, h2]

theorem findField_eq_none {α : Type} (fields : List (Field α)) (key : String)
    (h : hasField (fields.map (fun f => f.name)) key = false) :
    findField fields key = none := by
  unfold hasField at h
  have hall : ∀ f ∈ fields, keyMatches f.name key = false := by
    intro f hf
    have := List.any_eq_false.mp h f.name (List.mem_map.mpr ⟨f, hf, rfl⟩)
    simpa using this
  have h1 : fields.find? (fun f => f.name == key) = none := by
    rw [List.find?_eq_none]
    intro f hf
    have := hall f hf
    unfold keyMatches at this
    simp only [Bool.or_eq_false_iff] at this
    simp [this.1]
  have h2 : fields.find? (fun f => foldName f.name == foldName key) = none := by
    rw [List.find?_eq_none]
    intro f hf
    have := hall f hf
    unfold keyMatches at this
    simp only [Bool.or_eq_false_iff] at this
    simp [this.2]
  unfold findField
  rw [h1, h2]

theorem decodeMembers_skip {α : Type} (fields : List (Field α))
    (members : List (String × JSON)) (v : α) (saved : Option JsonError)
    (h : ∀ m ∈ members, findField fields m.1 = none) :
    decodeMembers fields members v saved = .ok (v, saved) := by
  induction members with
  | nil => rfl
  | cons m rest ih =>
    obtain ⟨key, j⟩ := m
    have hm : findField fields key = none := h (key, j) (List.mem_cons_self _ _)
    simp only [decodeMembers, hm]
    exact ih (fun m hmem => h m (List.mem_cons_of_mem _ hmem))

theorem decodeMembers_single {α : Type} (f : Field α) (members : List (String × JSON))
    (v : α) (saved : Option JsonError) :
    decodeMembers [f] members v saved
      = decodeMembers [f] (membersFor f.name members) v saved := by
  induction members generalizing v saved with
  | nil => rfl
  | cons m rest ih =>
    obtain ⟨key, j⟩ := m
    by_cases hk : keyMatches f.name key = true
    · have hf : findField [f] key = some f := by rw [findField_single, if_pos hk]
      have hm : membersFor f.name ((key, j) :: rest) = (key, j) :: membersFor f.name rest := by
        simp [membersFor, List.filter, hk]
      rw [hm]
      simp only [decodeMembers, hf]
      cases hs : f.store j v saved with
      | error e => rfl
      | ok r =>
        obtain ⟨v1, saved1⟩ := r
        exact ih v1 saved1
    · have hf : findField [f] key = none := by rw [findField_single, if_neg hk]
      have hm : membersFor f.name ((key, j) :: rest) = membersFor f.name rest := by
        simp [membersFor, List.filter, hk]
      rw [hm]
      simp only [decodeMembers, hf]
      exact ih v saved

/-- A body that is an object with exactly one member stored in the one field of the
struct: `Unmarshal` gives what the decoder of the field stores. -/
theorem Unmarshal_single {α : Type} (lib : Lib) (goType name : String) (store : Decoder α)
    (body : String) (members : List (String × JSON)) (k : String) (j : JSON) (v v1 : α)
    (hparse : lib.parse body = .ok (JSON.object members))
    (hkey : membersFor name members = [(k, j)])
    (hstore : store j v none = .ok (v1, none)) :
    Unmarshal lib (decodeStruct goType [{ name := name, store := store }]) body v = .ok v1 := by
  unfold Unmarshal
  rw [hparse]
  simp only [decodeStruct]
  rw [decodeMembers_single]
  simp only [hkey, decodeMembers]
  have hf : findField [({ name := name, store := store } : Field α)] k
      = some { name := name, store := store } := by
    rw [findField_single]
    have hmem : (k, j) ∈ membersFor name members := by rw [hkey]; exact List.mem_singleton.mpr rfl
    have := (List.mem_filter.mp hmem).2
    simp only at this
    rw [if_pos this]
  simp only [hf, hstore]

/-- A body that is an object with no member stored in a field of the struct:
`Unmarshal` leaves the value as it was. -/
theorem Unmarshal_no_field {α : Type} (lib : Lib) (goType : String) (fields : List (Field α))
    (body : String) (members : List (String × JSON)) (v : α)
    (hparse : lib.parse body = .ok (JSON.object members))
    (hkey : ∀ m ∈ members, hasField (fields.map (fun f => f.name)) m.1 = false) :
    Unmarshal lib (decodeStruct goType fields) body v = .ok v := by
  unfold Unmarshal
  rw [hparse]
  simp only [decodeStruct]
  rw [decodeMembers_skip fields members v none
    (fun m hm => findField_eq_none fields m.1 (hkey m hm))]

/-! ### Lemmas on query escaping -/

set_option maxRecDepth 100000 in
theorem escapeByte_shape_fin : ∀ n : Fin (2 ^ 8),
    (escapeByte (UInt8.mk (BitVec.ofFin n)) = [UInt8.mk (BitVec.ofFin n)] ∧ UInt8.mk (BitVec.ofFin n) ≠ 37 ∧ UInt8.mk (BitVec.ofFin n) ≠ 43) ∨
    (escapeByte (UInt8.mk (BitVec.ofFin n)) = [43] ∧ UInt8.mk (BitVec.ofFin n) = 32) ∨
    (escapeByte (UInt8.mk (BitVec.ofFin n))
        = [37, upperhex (UInt8.mk (BitVec.ofFin n) >>> 4), upperhex (UInt8.mk (BitVec.ofFin n) &&& 15)] ∧
      ishex (upperhex (UInt8.mk (BitVec.ofFin n) >>> 4)) = true ∧
      ishex (upperhex (UInt8.mk (BitVec.ofFin n) &&& 15)) = true ∧
      ((unhex (upperhex (UInt8.mk (BitVec.ofFin n) >>> 4)) <<< 4) ||| unhex (upperhex (UInt8.mk (BitVec.ofFin n) &&& 15)))
        = UInt8.mk (BitVec.ofFin n)) := by
  decide

set_option maxRecDepth 100000 in
theorem escapeByte_ascii_fin : ∀ n : Fin (2 ^ 8),
    (escapeByte (UInt8.mk (BitVec.ofFin n))).all
      (fun x => decide (x < 128) && (x != 38 && (x != 61 && x != 35))) = true := by
  decide

set_option maxRecDepth 100000 in
theorem utf8EncodeChar_ascii_fin : ∀ n : Fin (2 ^ 8), UInt8.mk (BitVec.ofFin n) < 128 →
    String.utf8EncodeChar (Char.ofNat (UInt8.mk (BitVec.ofFin n)).toNat) = [UInt8.mk (BitVec.ofFin n)] := by
  decide

theorem unescapeBytes_cons (c : UInt8) (rest : List UInt8) (h37 : c ≠ 37) :
    unescapeBytes (c :: rest)
      = if c = 43 then (unescapeBytes rest).map (fun t => 32 :: t)
        else (unescapeBytes rest).map (fun t => c :: t) := by
  rcases rest with _ | ⟨a, _ | ⟨b, r⟩⟩ <;> simp [unescapeBytes, h37]

theorem unescapeBytes_percent (a b : UInt8) (rest : List UInt8)
    (ha : ishex a = true) (hb : ishex b = true) :
    unescapeBytes (37 :: a :: b :: rest)
      = (unescapeBytes rest).map (fun t => ((unhex a <<< 4) ||| unhex b) :: t) := by
  rw [unescapeBytes]
  simp [ha, hb]

theorem unescapeBytes_escapeByte (b : UInt8) (rest : List UInt8) :
    unescapeBytes (escapeByte b ++ rest) = (unescapeBytes rest).map (fun t => b :: t) := by
  obtain ⟨bv⟩ := b
  obtain ⟨n⟩ := bv
  rcases escapeByte_shape_fin n with ⟨h, h37, h43⟩ | ⟨h, h32⟩ | ⟨h, hx1, hx2, hb⟩
  · rw [h, List.singleton_append, unescapeBytes_cons _ _ h37, if_neg h43]
  · rw [h, h32, List.singleton_append, unescapeBytes_cons _ _ (by decide), if_pos rfl]
  · rw [h]
    show unescapeBytes (37 :: _ :: _ :: rest) = _
    rw [unescapeBytes_percent _ _ _ hx1 hx2, hb]

theorem unescapeBytes_escape (bs : List UInt8) :
    unescapeBytes (bs.flatMap escapeByte) = some bs := by
  induction bs with
  | nil => rfl
  | cons b rest ih =>
    rw [List.flatMap_cons, unescapeBytes_escapeByte, ih]
    rfl

theorem utf8Bytes_asciiString (bs : List UInt8) (h : ∀ b ∈ bs, b < 128) :
    utf8Bytes (asciiString bs) = bs := by
  induction bs with
  | nil => rfl
  | cons b rest ih =>
    have hb : b < 128 := h b (List.mem_cons_self _ _)
    have hrest := ih (fun x hx => h x (List.mem_cons_of_mem _ hx))
    have h1 : String.utf8EncodeChar (Char.ofNat b.toNat) = [b] := by
      obtain ⟨bv⟩ := b
      obtain ⟨n⟩ := bv
      exact utf8EncodeChar_ascii_fin n hb
    unfold utf8Bytes asciiString at *
    simp only [List.map_cons, List.flatMap_cons, h1, List.singleton_append]
    rw [hrest]

theorem escapeByte_mem (b x : UInt8) (hx : x ∈ escapeByte b) :
    x < 128 ∧ x ≠ 38 ∧ x ≠ 61 ∧ x ≠ 35 := by
  obtain ⟨bv⟩ := b
  obtain ⟨n⟩ := bv
  have h := List.all_eq_true.mp (escapeByte_ascii_fin n) x hx
  simpa using h

/-- Unescaping an escaped string gives back its bytes. -/
theorem QueryUnescape_QueryEscape (s : String) :
    QueryUnescape (QueryEscape s) = some (utf8Bytes s) := by
  unfold QueryUnescape QueryEscape
  rw [utf8Bytes_asciiString]
  · exact unescapeBytes_escape _
  · intro b hb
    obtain ⟨c, _, hc⟩ := List.mem_flatMap.mp hb
    exact (escapeByte_mem c b hc).1

set_option maxRecDepth 100000 in
/-- An escaped string holds no `&`, `=` or `#`. -/
theorem QueryEscape_no_separator (s : String) (c : Char) (hc : c ∈ (QueryEscape s).data) :
    c ≠ Char.ofNat 38 ∧ c ≠ Char.ofNat 61 ∧ c ≠ Char.ofNat 35 := by
  unfold QueryEscape asciiString at hc
  simp only [List.mem_map] at hc
  obtain ⟨x, hx, rfl⟩ := hc
  obtain ⟨b, _, hb⟩ := List.mem_flatMap.mp hx
  have h := escapeByte_mem b x hb
  have key : ∀ n : Fin (2 ^ 8),
      (UInt8.mk (BitVec.ofFin n) < 128 ∧ UInt8.mk (BitVec.ofFin n) ≠ 38 ∧
        UInt8.mk (BitVec.ofFin n) ≠ 61 ∧ UInt8.mk (BitVec.ofFin n) ≠ 35) →
      Char.ofNat (UInt8.mk (BitVec.ofFin n)).toNat ≠ Char.ofNat 38 ∧
      Char.ofNat (UInt8.mk (BitVec.ofFin n)).toNat ≠ Char.ofNat 61 ∧
      Char.ofNat (UInt8.mk (BitVec.ofFin n)).toNat ≠ Char.ofNat 35 := by
    decide
  obtain ⟨bv⟩ := x
  obtain ⟨n⟩ := bv
  exact key n h

/-- The encoding of one key with one value. -/
theorem Values_Encode_single (key value : String) :
    Values.Encode (Values.Add [] key value) = QueryEscape key ++ "=" ++ QueryEscape value := by
  simp [Values.Encode, Values.Add, Values.sorted, Values.insertSorted, String.intercalate,
    String.intercalate.go]

/-! ### Lemmas on joining -/

theorem intercalate_go_append (sep x y : String) (l : List String) :
    String.intercalate.go (x ++ y) sep l = x ++ String.intercalate.go y sep l := by
  induction l generalizing y with
  | nil => rfl
  | cons a rest ih =>
    simp only [String.intercalate.go]
    rw [String.append_assoc, String.append_assoc, ← String.append_assoc y, ih]

theorem intercalate_cons_cons (sep a b : String) (rest : List String) :
    String.intercalate sep (a :: b :: rest)
      = a ++ sep ++ String.intercalate sep (b :: rest) := by
  simp only [String.intercalate, String.intercalate.go]
  rw [String.append_assoc, String.append_assoc, intercalate_go_append, intercalate_go_append]

theorem showMany_path (key csv : String) (hk : QueryEscape key = key) :
    "/organizations/show_many.json?" ++ Values.Encode (Values.Add [] key csv)
      = "/organizations/show_many.json?" ++ key ++ "=" ++ QueryEscape csv := by
  rw [Values_Encode_single, hk, String.append_assoc, String.append_assoc,
    String.append_assoc]

/-! ### Lemmas on the slice decoder -/

theorem decodeElems_all {α : Type} (zero : α) (elem : Decoder α) (elems : List JSON)
    (vs : List α)
    (h : List.Forall₂ (fun j v => elem j zero none = .ok (v, none)) elems vs) :
    decodeElems zero elem elems [] none = .ok (vs, none) := by
  induction h with
  | nil => rfl
  | cons hd _ ih =>
    simp only [decodeElems, List.headD_nil, List.tail_nil, hd, ih]

/-- An array whose elements all decode, stored into the nil slice: the slice holds the
decoded elements, in the order of the array. -/
theorem decodeSlice_array {α : Type} (goType : String) (zero : α) (elem : Decoder α)
    (elems : List JSON) (vs : List α)
    (h : List.Forall₂ (fun j v => elem j zero none = .ok (v, none)) elems vs) :
    ∃ sl : Slice α,
      decodeSlice goType zero elem (JSON.array elems) Slice.nil none = .ok (sl, none) ∧
      sl.toList = vs ∧ sl.len = elems.length ∧ sl.isNil = false := by
  have hlen : elems.length = vs.length := h.length_eq
  have hd := decodeElems_all zero elem elems vs h
  cases elems with
  | nil =>
    cases h
    refine ⟨{ isNil := false, len := 0, store := [] }, ?_, rfl, rfl, rfl⟩
    simp only [decodeSlice, Slice.nil, hd]
  | cons j rest =>
    refine ⟨{ isNil := false, len := (j :: rest).length, store := vs ++ [] }, ?_, ?_, rfl,
      rfl⟩
    · simp only [decodeSlice, Slice.nil, hd, List.drop_nil]
    · simp only [Slice.toList, List.append_nil]
      rw [hlen]
      exact List.take_length vs

/-! ### The claims -/

/-- C1: for every JobStatus string s, Terminal is true exactly when s is "failed",
"completed" or "killed"; it is false for "queued", "working", the empty string and for
differently cased or unknown strings. -/
theorem terminal_iff_failed_completed_killed :
    (∀ s : JobStatus,
      JobStatus.Terminal s = true ↔ (s = "failed" ∨ s = "completed" ∨ s = "killed")) ∧
    JobStatus.Terminal JobQueued = false ∧
    JobStatus.Terminal JobWorking = false ∧
    JobStatus.Terminal "" = false ∧
    JobStatus.Terminal "Failed" = false ∧
    JobStatus.Terminal "COMPLETED" = false ∧
    JobStatus.Terminal "done" = false := by
  refine ⟨?_, by decide, by decide, by decide, by decide, by decide, by decide⟩
  intro s
  unfold JobStatus.Terminal JobFailed JobCompleted JobKilled
  by_cases h : s = "failed" ∨ s = "completed" ∨ s = "killed"
  · simp [h]
  · simp [h]

/-- C2: when postWithResponse succeeds and the body decodes, CreateOrUpdateOrganization
returns the decoded organization with a nil error, with created = true for status 201
and created = false for status 200; when the body is an object with one member stored
under "organization", the decoded organization is the one decoded from that member. -/
theorem createOrUpdateOrganization_created_flag (lib : Lib) (z : Client)
    (org : Organization) (body : String) (resp : Response) (result : Organization)
    (hpost : z.postWithResponse "/organizations/create_or_update.json"
      (Payload.organization org) = .ok (body, resp))
    (hdec : Unmarshal lib (organizationData lib) body Organization.zero = .ok result) :
    (resp.StatusCode = 201 →
      (CreateOrUpdateOrganization lib z org).2 = (result, true, none)) ∧
    (resp.StatusCode = 200 →
      (CreateOrUpdateOrganization lib z org).2 = (result, false, none)) ∧
    (∀ (members : List (String × JSON)) (k : String) (j : JSON) (o : Organization),
      lib.parse body = .ok (JSON.object members) →
      membersFor "organization" members = [(k, j)] →
      lib.decodeOrganization j Organization.zero none = .ok (o, none) →
      result = o) := by
  refine ⟨?_, ?_, ?_⟩
  · intro h
    simp [CreateOrUpdateOrganization, hpost, hdec, h, StatusOK, StatusCreated]
  · intro h
    simp [CreateOrUpdateOrganization, hpost, hdec, h, StatusOK, StatusCreated]
  · intro members k j o hparse hkey hstore
    have h := Unmarshal_single lib "struct" "organization" lib.decodeOrganization body
      members k j Organization.zero o hparse hkey hstore
    unfold organizationData at hdec
    rw [h] at hdec
    injection hdec with hdec
    exact hdec.symm

/-- C2, on a sample: status 201 and an "organization" object with id 7 and name acme. -/
theorem createOrUpdateOrganization_created_flag_witness :
    (CreateOrUpdateOrganization sampleLib (answering 201 sampleOrganizationBody)
      Organization.zero).2
      = ({ Organization.zero with ID := 7, Name := "acme" }, true, none) :=
  (createOrUpdateOrganization_created_flag sampleLib (answering 201 sampleOrganizationBody)
    Organization.zero sampleOrganizationBody
    { StatusCode := 201, Status := "", Header := [] }
    { Organization.zero with ID := 7, Name := "acme" } (by rfl) (by rfl)).1 (by rfl)

/-- C3: when postWithResponse returns a response whose status is neither 200 nor 201,
CreateOrUpdateOrganization makes no other call (the body is not decoded, whatever it
holds) and returns the zero Organization, created = false and the Error made of exactly
that body and that response. -/
theorem createOrUpdateOrganization_other_status (lib : Lib) (z : Client)
    (org : Organization) (body : String) (resp : Response)
    (hpost : z.postWithResponse "/organizations/create_or_update.json"
      (Payload.organization org) = .ok (body, resp))
    (h200 : resp.StatusCode ≠ 200) (h201 : resp.StatusCode ≠ 201) :
    CreateOrUpdateOrganization lib z org
      = ([Event.postWithResponse "/organizations/create_or_update.json"
            (Payload.organization org)],
         Organization.zero, false, some (GoError.api { body := body, resp := resp })) ∧
    (∀ e : JsonError, GoError.api { body := body, resp := resp } ≠ GoError.json e) ∧
    ({ body := body, resp := resp } : Error).resp.StatusCode = resp.StatusCode := by
  refine ⟨?_, by simp, rfl⟩
  simp [CreateOrUpdateOrganization, hpost, h200, h201, StatusOK, StatusCreated]

/-- C3, on a sample: status 502 with a body that is not JSON. -/
theorem createOrUpdateOrganization_other_status_witness :
    sampleLib.parse sampleHtmlBody = .error (JsonError.invalid 1) ∧
    CreateOrUpdateOrganization sampleLib (answering 502 sampleHtmlBody) Organization.zero
      = ([Event.postWithResponse "/organizations/create_or_update.json"
            (Payload.organization Organization.zero)],
         Organization.zero, false,
         some (GoError.api
           { body := sampleHtmlBody,
             resp := { StatusCode := 502, Status := "", Header := [] } })) :=
  ⟨by rfl,
   (createOrUpdateOrganization_other_status sampleLib (answering 502 sampleHtmlBody)
      Organization.zero sampleHtmlBody { StatusCode := 502, Status := "", Header := [] }
      (by rfl) (by decide) (by decide)).1⟩

/-- C4 as stated fails: GetJob, given the accepted body of an empty JSON object (valid
JSON without "job_status"), returns the zero Job and a nil error, not a decode error. -/
theorem getJob_missing_key_counterexample :
    sampleLib.parse emptyObjectBody = .ok (JSON.object []) ∧
    (answering 200 emptyObjectBody).get "/job_statuses/8b726e606741012ffc2d782bcb7848fe.json"
      = .ok emptyObjectBody ∧
    (GetJob sampleLib (answering 200 emptyObjectBody) "8b726e606741012ffc2d782bcb7848fe").2
      = (Job.zero, none) ∧
    ¬ ∃ e : JsonError,
      (GetJob sampleLib (answering 200 emptyObjectBody)
        "8b726e606741012ffc2d782bcb7848fe").2.2 = some (GoError.json e) := by
  refine ⟨by rfl, by rfl, by rfl, ?_⟩
  rintro ⟨e, he⟩
  have h : (GetJob sampleLib (answering 200 emptyObjectBody)
      "8b726e606741012ffc2d782bcb7848fe").2.2 = none := by rfl
  rw [h] at he
  exact Option.noConfusion he

/-- C4, amended: when the accepted body is a JSON object none of whose members is stored
in a field of the operation's data struct (the wrapper key, and for the custom field
lists the keys of Page), each read returns a nil error and the zero value: the empty Job
or Organization, the nil list, the empty Page. -/
theorem read_missing_key_returns_zero (lib : Lib) (z : Client) (body : String)
    (members : List (String × JSON))
    (hparse : lib.parse body = .ok (JSON.object members)) :
    ((∀ m ∈ members, keyMatches "job_status" m.1 = false) →
      ∀ id u, lib.addOptions ("/job_statuses/" ++ id ++ ".json") Options.empty = .ok u →
        z.get u = .ok body → (GetJob lib z id).2 = (Job.zero, none)) ∧
    ((∀ m ∈ members, keyMatches "job_statuses" m.1 = false) →
      ∀ ids u, lib.addOptions "/job_statuses/show_many.json"
          (Options.ids (String.intercalate "," ids)) = .ok u →
        z.get u = .ok body → (GetJobs lib z ids).2 = (Slice.nil, none)) ∧
    ((∀ m ∈ members, keyMatches "job_statuses" m.1 = false) →
      ∀ u, lib.addOptions "/job_statuses.json" Options.empty = .ok u →
        z.get u = .ok body → (ListJobs lib z).2 = (Slice.nil, none)) ∧
    ((∀ m ∈ members, keyMatches "organization" m.1 = false) →
      ∀ orgID, z.get ("/organizations/" ++ toString orgID ++ ".json") = .ok body →
        (GetOrganization lib z orgID).2 = (Organization.zero, none)) ∧
    ((∀ m ∈ members, keyMatches "organizations" m.1 = false) →
      ∀ orgIDs, z.get ("/organizations/show_many.json?" ++ Values.Encode
          (Values.Add [] "ids" (String.intercalate "," (orgIDs.map (fun id => toString id)))))
          = .ok body →
        (GetOrganizations lib z orgIDs).2 = (Slice.nil, none)) ∧
    ((∀ m ∈ members,
        hasField ["user_fields", "previous_page", "next_page", "count"] m.1 = false) →
      ∀ opts u, lib.addOptions "/user_fields.json" (Options.customFieldList
          (some (opts.getD CustomFieldListOptions.zero))) = .ok u →
        z.get u = .ok body → (GetUserFields lib z opts).2 = (Slice.nil, Page.zero, none)) ∧
    ((∀ m ∈ members,
        hasField ["organization_fields", "previous_page", "next_page", "count"] m.1 = false) →
      ∀ opts u, lib.addOptions "/organization_fields.json" (Options.customFieldList
          (some (opts.getD CustomFieldListOptions.zero))) = .ok u →
        z.get u = .ok body →
        (GetOrganizationFields lib z opts).2 = (Slice.nil, Page.zero, none)) := by
  have single : ∀ {α : Type} (name : String) (store : Decoder α) (v : α),
      (∀ m ∈ members, keyMatches name m.1 = false) →
      Unmarshal lib (decodeStruct "struct" [{ name := name, store := store }]) body v
        = .ok v := by
    intro α name store v hk
    apply Unmarshal_no_field lib "struct" _ body members v hparse
    intro m hm
    simp [hasField, hk m hm]
  refine ⟨?_, ?_, ?_, ?_, ?_, ?_, ?_⟩
  · intro hk id u hu hget
    have hd := single "job_status" lib.decodeJob Job.zero hk
    simp only [GetJob, hu, hget, jobStatusData, hd]
  · intro hk ids u hu hget
    have hd := single "job_statuses" (decodeSlice "[]zendesk.Job" Job.zero lib.decodeJob)
      Slice.nil hk
    simp only [GetJobs, hu, hget, jobStatusesData, hd]
  · intro hk u hu hget
    have hd := single "job_statuses" (decodeSlice "[]zendesk.Job" Job.zero lib.decodeJob)
      Slice.nil hk
    simp only [ListJobs, hu, hget, jobStatusesData, hd]
  · intro hk orgID hget
    have hd := single "organization" lib.decodeOrganization Organization.zero hk
    simp only [GetOrganization, hget, organizationData, hd]
  · intro hk orgIDs hget
    have hd := single "organizations"
      (decodeSlice "[]zendesk.Organization" Organization.zero lib.decodeOrganization)
      Slice.nil hk
    simp only [GetOrganizations, hget, organizationsData, hd]
  · intro hk opts u hu hget
    have hd : Unmarshal lib (fieldsData lib "user_fields") body FieldsData.zero
        = .ok FieldsData.zero := by
      unfold fieldsData
      apply Unmarshal_no_field lib "struct" _ body members _ hparse
      intro m hm
      simpa [pageFields] using hk m hm
    cases opts with
    | none =>
      have hu2 : lib.addOptions "/user_fields.json"
          (Options.customFieldList (some CustomFieldListOptions.zero)) = .ok u := hu
      simp only [GetUserFields, hu2, hget, hd]
      rfl
    | some o =>
      have hu2 : lib.addOptions "/user_fields.json" (Options.customFieldList (some o)) = .ok u := hu
      simp only [GetUserFields, hu2, hget, hd]
      rfl
  · intro hk opts u hu hget
    have hd : Unmarshal lib (fieldsData lib "organization_fields") body FieldsData.zero
        = .ok FieldsData.zero := by
      unfold fieldsData
      apply Unmarshal_no_field lib "struct" _ body members _ hparse
      intro m hm
      simpa [pageFields] using hk m hm
    cases opts with
    | none =>
      have hu2 : lib.addOptions "/organization_fields.json"
          (Options.customFieldList (some CustomFieldListOptions.zero)) = .ok u := hu
      simp only [GetOrganizationFields, hu2, hget, hd]
      rfl
    | some o =>
      have hu2 : lib.addOptions "/organization_fields.json" (Options.customFieldList (some o)) = .ok u := hu
      simp only [GetOrganizationFields, hu2, hget, hd]
      rfl

/-- C4 amended, on a sample: GetUserFields on the body of an empty object. -/
theorem read_missing_key_returns_zero_witness :
    sampleLib.parse emptyObjectBody = .ok (JSON.object []) ∧
    (GetUserFields sampleLib (answering 200 emptyObjectBody) none).2
      = (Slice.nil, Page.zero, none) :=
  ⟨by rfl,
   (read_missing_key_returns_zero sampleLib (answering 200 emptyObjectBody) emptyObjectBody
      [] (by rfl)).2.2.2.2.2.1 (fun _ hm => absurd hm (List.not_mem_nil _)) none
      "/user_fields.json" (by rfl) (by rfl)⟩

/-- C5: GetJobs first calls addOptions with "/job_statuses/show_many.json" and the
options whose ids field is the ids joined by "," in input order ("" for no id, the id
itself for one); when addOptions gives a path, the only request is one get of that path;
in no case is there more than one request. -/
theorem getJobs_one_get (lib : Lib) (z : Client) (ids : List String) :
    (∃ rest, (GetJobs lib z ids).1
        = Event.addOptions "/job_statuses/show_many.json"
            (Options.ids (String.intercalate "," ids)) :: rest ∧
      ∀ e ∈ rest, ∀ s o, e ≠ Event.addOptions s o) ∧
    (∀ u, lib.addOptions "/job_statuses/show_many.json"
        (Options.ids (String.intercalate "," ids)) = .ok u →
      requests (GetJobs lib z ids).1 = [Event.get u]) ∧
    (requests (GetJobs lib z ids).1).length ≤ 1 ∧
    String.intercalate "," ([] : List String) = "" ∧
    (∀ a : String, String.intercalate "," [a] = a) ∧
    (∀ (a b : String) (rest : List String),
      String.intercalate "," (a :: b :: rest)
        = a ++ "," ++ String.intercalate "," (b :: rest)) := by
  refine ⟨?_, ?_, ?_, rfl, fun a => rfl, fun a b rest => intercalate_cons_cons "," a b rest⟩
  · rcases h1 : lib.addOptions "/job_statuses/show_many.json"
        (Options.ids (String.intercalate "," ids)) with e | u
    · simp only [GetJobs, h1]
      exact ⟨[], rfl, by simp⟩
    · rcases h2 : z.get u with e | body
      · simp only [GetJobs, h1, h2]
        exact ⟨_, rfl, by simp⟩
      · rcases h3 : Unmarshal lib (jobStatusesData lib) body Slice.nil with e | data
        · simp only [GetJobs, h1, h2, h3]
          exact ⟨_, rfl, by simp⟩
        · simp only [GetJobs, h1, h2, h3]
          exact ⟨_, rfl, by simp⟩
  · intro u h1
    rcases h2 : z.get u with e | body
    · simp only [GetJobs, h1, h2]
      rfl
    · rcases h3 : Unmarshal lib (jobStatusesData lib) body Slice.nil with e | data
      · simp only [GetJobs, h1, h2, h3]
        rfl
      · simp only [GetJobs, h1, h2, h3]
        rfl
  · rcases h1 : lib.addOptions "/job_statuses/show_many.json"
        (Options.ids (String.intercalate "," ids)) with e | u
    · simp [GetJobs, h1, requests, Event.isRequest]
    · rcases h2 : z.get u with e | body
      · simp [GetJobs, h1, h2, requests, Event.isRequest]
      · rcases h3 : Unmarshal lib (jobStatusesData lib) body Slice.nil with e | data
        · simp [GetJobs, h1, h2, h3, requests, Event.isRequest]
        · simp [GetJobs, h1, h2, h3, requests, Event.isRequest]

/-- C5, on a sample: two ids give one get, with the ids joined by a comma. -/
theorem getJobs_one_get_witness :
    sampleLib.addOptions "/job_statuses/show_many.json"
        (Options.ids (String.intercalate "," ["x", "y"]))
      = .ok "/job_statuses/show_many.json?ids=x%2Cy" ∧
    requests (GetJobs sampleLib (answering 200 sampleJobsBody) ["x", "y"]).1
      = [Event.get "/job_statuses/show_many.json?ids=x%2Cy"] :=
  ⟨by rfl,
   (getJobs_one_get sampleLib (answering 200 sampleJobsBody) ["x", "y"]).2.1
      "/job_statuses/show_many.json?ids=x%2Cy" (by rfl)⟩

/-- C6: for every list of integer ids GetOrganizations sends exactly one request, a get
of "/organizations/show_many.json?ids=" followed by the query-escaped base-10 renderings
of the ids joined by "," in input order; GetOrganizationsByExternalID sends the same
with external_ids for ids; unescaping the escaped value gives back the joined list, and
the escaped value holds no "&", "=" or "#". -/
theorem getOrganizations_path (lib : Lib) (z : Client) (orgIDs : List Int) :
    requests (GetOrganizations lib z orgIDs).1
      = [Event.get ("/organizations/show_many.json?ids=" ++
          QueryEscape (String.intercalate "," (orgIDs.map (fun id => toString id))))] ∧
    requests (GetOrganizationsByExternalID lib z orgIDs).1
      = [Event.get ("/organizations/show_many.json?external_ids=" ++
          QueryEscape (String.intercalate "," (orgIDs.map (fun id => toString id))))] ∧
    QueryUnescape (QueryEscape (String.intercalate "," (orgIDs.map (fun id => toString id))))
      = some (utf8Bytes (String.intercalate "," (orgIDs.map (fun id => toString id)))) ∧
    (∀ c ∈ (QueryEscape
        (String.intercalate "," (orgIDs.map (fun id => toString id)))).data,
      c ≠ Char.ofNat 38 ∧ c ≠ Char.ofNat 61 ∧ c ≠ Char.ofNat 35) ∧
    requests (GetOrganizations lib z [3, -14, 0]).1
      = [Event.get "/organizations/show_many.json?ids=3%2C-14%2C0"] ∧
    requests (GetOrganizations lib z []).1
      = [Event.get "/organizations/show_many.json?ids="] := by
  have hids : ∀ ids : List Int, requests (GetOrganizations lib z ids).1
      = [Event.get ("/organizations/show_many.json?ids=" ++
          QueryEscape (String.intercalate "," (ids.map (fun id => toString id))))] := by
    intro ids
    have hp : "/organizations/show_many.json?" ++ Values.Encode
          (Values.Add [] "ids" (String.intercalate "," (ids.map (fun id => toString id))))
        = "/organizations/show_many.json?ids=" ++
          QueryEscape (String.intercalate "," (ids.map (fun id => toString id))) := by
      rw [showMany_path "ids" _ (by decide)]
      have hq : "/organizations/show_many.json?" ++ "ids" ++ "="
          = "/organizations/show_many.json?ids=" := by decide
      rw [hq]
    rcases h2 : z.get ("/organizations/show_many.json?ids=" ++
        QueryEscape (String.intercalate "," (ids.map (fun id => toString id)))) with e | body
    · simp only [GetOrganizations, hp, h2]
      rfl
    · rcases h3 : Unmarshal lib (organizationsData lib) body Slice.nil with e | data
      · simp only [GetOrganizations, hp, h2, h3]
        rfl
      · simp only [GetOrganizations, hp, h2, h3]
        rfl
  refine ⟨hids orgIDs, ?_, QueryUnescape_QueryEscape _,
    fun c hc => QueryEscape_no_separator _ c hc, ?_, ?_⟩
  · have hp : "/organizations/show_many.json?" ++ Values.Encode
          (Values.Add [] "external_ids"
            (String.intercalate "," (orgIDs.map (fun id => toString id))))
        = "/organizations/show_many.json?external_ids=" ++
          QueryEscape (String.intercalate "," (orgIDs.map (fun id => toString id))) := by
      rw [showMany_path "external_ids" _ (by decide)]
      have hq : "/organizations/show_many.json?" ++ "external_ids" ++ "="
          = "/organizations/show_many.json?external_ids=" := by decide
      rw [hq]
    rcases h2 : z.get ("/organizations/show_many.json?external_ids=" ++
        QueryEscape (String.intercalate "," (orgIDs.map (fun id => toString id))))
      with e | body
    · simp only [GetOrganizationsByExternalID, hp, h2]
      rfl
    · rcases h3 : Unmarshal lib (organizationsData lib) body Slice.nil with e | data
      · simp only [GetOrganizationsByExternalID, hp, h2, h3]
        rfl
      · simp only [GetOrganizationsByExternalID, hp, h2, h3]
        rfl
  · rw [hids]
    have hp : "/organizations/show_many.json?ids=" ++
        QueryEscape (String.intercalate "," (([3, -14, 0] : List Int).map
          (fun id => toString id)))
        = "/organizations/show_many.json?ids=3%2C-14%2C0" := by decide
    rw [hp]
  · rw [hids]
    have hp : "/organizations/show_many.json?ids=" ++
        QueryEscape (String.intercalate "," (([] : List Int).map (fun id => toString id)))
        = "/organizations/show_many.json?ids=" := by decide
    rw [hp]

/-- C7: when addOptions or the dispatcher call of an operation fails with error e, the
operation returns exactly e with the zero result (nil list, empty Job or Organization,
empty Page, created = false); its calls end with the failed call: nothing is decoded and
no further request is sent. -/
theorem dispatch_error_returned_unchanged (lib : Lib) (z : Client) (e : GoError) :
    (lib.addOptions "/job_statuses.json" Options.empty = .error e →
      ListJobs lib z
        = ([Event.addOptions "/job_statuses.json" Options.empty], Slice.nil, some e)) ∧
    (∀ u, lib.addOptions "/job_statuses.json" Options.empty = .ok u → z.get u = .error e →
      ListJobs lib z
        = ([Event.addOptions "/job_statuses.json" Options.empty, Event.get u],
           Slice.nil, some e)) ∧
    (∀ id, lib.addOptions ("/job_statuses/" ++ id ++ ".json") Options.empty = .error e →
      GetJob lib z id
        = ([Event.addOptions ("/job_statuses/" ++ id ++ ".json") Options.empty],
           Job.zero, some e)) ∧
    (∀ id u, lib.addOptions ("/job_statuses/" ++ id ++ ".json") Options.empty = .ok u →
      z.get u = .error e →
      GetJob lib z id
        = ([Event.addOptions ("/job_statuses/" ++ id ++ ".json") Options.empty, Event.get u],
           Job.zero, some e)) ∧
    (∀ ids, lib.addOptions "/job_statuses/show_many.json"
        (Options.ids (String.intercalate "," ids)) = .error e →
      GetJobs lib z ids
        = ([Event.addOptions "/job_statuses/show_many.json"
              (Options.ids (String.intercalate "," ids))], Slice.nil, some e)) ∧
    (∀ ids u, lib.addOptions "/job_statuses/show_many.json"
        (Options.ids (String.intercalate "," ids)) = .ok u → z.get u = .error e →
      GetJobs lib z ids
        = ([Event.addOptions "/job_statuses/show_many.json"
              (Options.ids (String.intercalate "," ids)), Event.get u],
           Slice.nil, some e)) ∧
    (∀ org, z.post "/organizations.json" (Payload.organization org) [] = .error e →
      CreateOrganization lib z org
        = ([Event.post "/organizations.json" (Payload.organization org) []],
           Organization.zero, some e)) ∧
    (∀ orgID : Int, z.get ("/organizations/" ++ toString orgID ++ ".json") = .error e →
      GetOrganization lib z orgID
        = ([Event.get ("/organizations/" ++ toString orgID ++ ".json")],
           Organization.zero, some e)) ∧
    (∀ orgIDs : List Int,
      z.get ("/organizations/show_many.json?" ++ Values.Encode (Values.Add [] "ids"
        (String.intercalate "," (orgIDs.map (fun id => toString id))))) = .error e →
      GetOrganizations lib z orgIDs
        = ([Event.get ("/organizations/show_many.json?" ++ Values.Encode (Values.Add [] "ids"
              (String.intercalate "," (orgIDs.map (fun id => toString id)))))],
           Slice.nil, some e)) ∧
    (∀ orgIDs : List Int,
      z.get ("/organizations/show_many.json?" ++ Values.Encode (Values.Add [] "external_ids"
        (String.intercalate "," (orgIDs.map (fun id => toString id))))) = .error e →
      GetOrganizationsByExternalID lib z orgIDs
        = ([Event.get ("/organizations/show_many.json?" ++ Values.Encode
              (Values.Add [] "external_ids"
                (String.intercalate "," (orgIDs.map (fun id => toString id)))))],
           Slice.nil, some e)) ∧
    (∀ (orgID : Int) org,
      z.put ("/organizations/" ++ toString orgID ++ ".json") (Payload.organization org)
        = .error e →
      UpdateOrganization lib z orgID org
        = ([Event.put ("/organizations/" ++ toString orgID ++ ".json")
              (Payload.organization org)], Organization.zero, some e)) ∧
    (∀ org, z.postWithResponse "/organizations/create_or_update.json"
        (Payload.organization org) = .error e →
      CreateOrUpdateOrganization lib z org
        = ([Event.postWithResponse "/organizations/create_or_update.json"
              (Payload.organization org)], Organization.zero, false, some e)) ∧
    (∀ orgID : Int, z.delete ("/organizations/" ++ toString orgID ++ ".json") = some e →
      DeleteOrganization z orgID
        = ([Event.delete ("/organizations/" ++ toString orgID ++ ".json")], some e)) ∧
    (∀ orgs, z.post "/organizations/update_many.json" (Payload.organizations orgs)
        [RequestOption.expectStatus StatusOK] = .error e →
      UpdateManyOrganizations lib z orgs
        = ([Event.post "/organizations/update_many.json" (Payload.organizations orgs)
              [RequestOption.expectStatus StatusOK]], Job.zero, some e)) ∧
    (∀ opts, lib.addOptions "/user_fields.json" (Options.customFieldList
        (some (opts.getD CustomFieldListOptions.zero))) = .error e →
      GetUserFields lib z opts
        = ([Event.addOptions "/user_fields.json" (Options.customFieldList
              (some (opts.getD CustomFieldListOptions.zero)))],
           Slice.nil, Page.zero, some e)) ∧
    (∀ opts u, lib.addOptions "/user_fields.json" (Options.customFieldList
        (some (opts.getD CustomFieldListOptions.zero))) = .ok u → z.get u = .error e →
      GetUserFields lib z opts
        = ([Event.addOptions "/user_fields.json" (Options.customFieldList
              (some (opts.getD CustomFieldListOptions.zero))), Event.get u],
           Slice.nil, Page.zero, some e)) ∧
    (∀ opts, lib.addOptions "/organization_fields.json" (Options.customFieldList
        (some (opts.getD CustomFieldListOptions.zero))) = .error e →
      GetOrganizationFields lib z opts
        = ([Event.addOptions "/organization_fields.json" (Options.customFieldList
              (some (opts.getD CustomFieldListOptions.zero)))],
           Slice.nil, Page.zero, some e)) ∧
    (∀ opts u, lib.addOptions "/organization_fields.json" (Options.customFieldList
        (some (opts.getD CustomFieldListOptions.zero))) = .ok u → z.get u = .error e →
      GetOrganizationFields lib z opts
        = ([Event.addOptions "/organization_fields.json" (Options.customFieldList
              (some (opts.getD CustomFieldListOptions.zero))), Event.get u],
           Slice.nil, Page.zero, some e)) := by
  refine ⟨?_, ?_, ?_, ?_, ?_, ?_, ?_, ?_, ?_, ?_, ?_, ?_, ?_, ?_, ?_, ?_, ?_, ?_⟩
  · intro h
    simp only [ListJobs, h]
  · intro u h1 h2
    simp only [ListJobs, h1, h2]
  · intro id h
    simp only [GetJob, h]
  · intro id u h1 h2
    simp only [GetJob, h1, h2]
  · intro ids h
    simp only [GetJobs, h]
  · intro ids u h1 h2
    simp only [GetJobs, h1, h2]
  · intro org h
    simp only [CreateOrganization, h]
  · intro orgID h
    simp only [GetOrganization, h]
  · intro orgIDs h
    simp only [GetOrganizations, h]
  · intro orgIDs h
    simp only [GetOrganizationsByExternalID, h]
  · intro orgID org h
    simp only [UpdateOrganization, h]
  · intro org h
    simp only [CreateOrUpdateOrganization, h]
  · intro orgID h
    simp only [DeleteOrganization, h]
  · intro orgs h
    simp only [UpdateManyOrganizations, h]
  · intro opts h
    cases opts with
    | none =>
      have h1 : lib.addOptions "/user_fields.json"
          (Options.customFieldList (some CustomFieldListOptions.zero)) = .error e := h
      simp only [GetUserFields, h1, Option.getD]
    | some o =>
      have h1 : lib.addOptions "/user_fields.json" (Options.customFieldList (some o))
          = .error e := h
      simp only [GetUserFields, h1, Option.getD]
  · intro opts u h h2
    cases opts with
    | none =>
      have h1 : lib.addOptions "/user_fields.json"
          (Options.customFieldList (some CustomFieldListOptions.zero)) = .ok u := h
      simp only [GetUserFields, h1, h2, Option.getD]
    | some o =>
      have h1 : lib.addOptions "/user_fields.json" (Options.customFieldList (some o))
          = .ok u := h
      simp only [GetUserFields, h1, h2, Option.getD]
  · intro opts h
    cases opts with
    | none =>
      have h1 : lib.addOptions "/organization_fields.json"
          (Options.customFieldList (some CustomFieldListOptions.zero)) = .error e := h
      simp only [GetOrganizationFields, h1, Option.getD]
    | some o =>
      have h1 : lib.addOptions "/organization_fields.json"
          (Options.customFieldList (some o)) = .error e := h
      simp only [GetOrganizationFields, h1, Option.getD]
  · intro opts u h h2
    cases opts with
    | none =>
      have h1 : lib.addOptions "/organization_fields.json"
          (Options.customFieldList (some CustomFieldListOptions.zero)) = .ok u := h
      simp only [GetOrganizationFields, h1, h2, Option.getD]
    | some o =>
      have h1 : lib.addOptions "/organization_fields.json"
          (Options.customFieldList (some o)) = .ok u := h
      simp only [GetOrganizationFields, h1, h2, Option.getD]

/-- C7, on samples: a dispatcher whose get fails, and an addOptions that fails. -/
theorem dispatch_error_returned_unchanged_witness :
    GetJob sampleLib (failing (GoError.other "connection refused")) "42"
      = ([Event.addOptions "/job_statuses/42.json" Options.empty,
          Event.get "/job_statuses/42.json"], Job.zero,
         some (GoError.other "connection refused")) ∧
    GetJob (failingLib (GoError.other "unsupported type"))
        (failing (GoError.other "connection refused")) "42"
      = ([Event.addOptions "/job_statuses/42.json" Options.empty], Job.zero,
         some (GoError.other "unsupported type")) :=
  ⟨(dispatch_error_returned_unchanged sampleLib (failing (GoError.other "connection refused"))
      (GoError.other "connection refused")).2.2.2.1 "42" "/job_statuses/42.json"
      (by rfl) (by rfl),
   (dispatch_error_returned_unchanged (failingLib (GoError.other "unsupported type"))
      (failing (GoError.other "connection refused"))
      (GoError.other "unsupported type")).2.2.1 "42" (by rfl)⟩

/-! ### Lemmas on the custom field lists -/

theorem GetUserFields_nil (lib : Lib) (z : Client) :
    GetUserFields lib z none = GetUserFields lib z (some CustomFieldListOptions.zero) := rfl

theorem GetUserFields_some_ok (lib : Lib) (z : Client) (o : CustomFieldListOptions)
    (u body : String) (data : FieldsData)
    (h1 : lib.addOptions "/user_fields.json" (Options.customFieldList (some o)) = .ok u)
    (h2 : z.get u = .ok body)
    (h3 : Unmarshal lib (fieldsData lib "user_fields") body FieldsData.zero = .ok data) :
    GetUserFields lib z (some o)
      = ([Event.addOptions "/user_fields.json" (Options.customFieldList (some o)),
          Event.get u, Event.unmarshal body], data.Fields, data.Page, none) := by
  simp only [GetUserFields, h1, h2, h3]

theorem GetUserFields_some_requests (lib : Lib) (z : Client) (o : CustomFieldListOptions)
    (u : String)
    (h1 : lib.addOptions "/user_fields.json" (Options.customFieldList (some o)) = .ok u) :
    requests (GetUserFields lib z (some o)).1 = [Event.get u] := by
  rcases h2 : z.get u with e | body
  · simp only [GetUserFields, h1, h2]
    rfl
  · rcases h3 : Unmarshal lib (fieldsData lib "user_fields") body FieldsData.zero
      with e | data
    · simp only [GetUserFields, h1, h2, h3]
      rfl
    · simp only [GetUserFields, h1, h2, h3]
      rfl

theorem GetOrganizationFields_nil (lib : Lib) (z : Client) :
    GetOrganizationFields lib z none = GetOrganizationFields lib z (some CustomFieldListOptions.zero) := rfl

theorem GetOrganizationFields_some_ok (lib : Lib) (z : Client) (o : CustomFieldListOptions)
    (u body : String) (data : FieldsData)
    (h1 : lib.addOptions "/organization_fields.json" (Options.customFieldList (some o)) = .ok u)
    (h2 : z.get u = .ok body)
    (h3 : Unmarshal lib (fieldsData lib "organization_fields") body FieldsData.zero = .ok data) :
    GetOrganizationFields lib z (some o)
      = ([Event.addOptions "/organization_fields.json" (Options.customFieldList (some o)),
          Event.get u, Event.unmarshal body], data.Fields, data.Page, none) := by
  simp only [GetOrganizationFields, h1, h2, h3]

theorem GetOrganizationFields_some_requests (lib : Lib) (z : Client) (o : CustomFieldListOptions)
    (u : String)
    (h1 : lib.addOptions "/organization_fields.json" (Options.customFieldList (some o)) = .ok u) :
    requests (GetOrganizationFields lib z (some o)).1 = [Event.get u] := by
  rcases h2 : z.get u with e | body
  · simp only [GetOrganizationFields, h1, h2]
    rfl
  · rcases h3 : Unmarshal lib (fieldsData lib "organization_fields") body FieldsData.zero
      with e | data
    · simp only [GetOrganizationFields, h1, h2, h3]
      rfl
    · simp only [GetOrganizationFields, h1, h2, h3]
      rfl

theorem load_new_cell (mem : OptionsMemory) (v : CustomFieldListOptions) :
    OptionsMemory.load (mem ++ [v]) (some mem.length) = some v := by
  simp [OptionsMemory.load]

theorem cell_kept (mem : OptionsMemory) (v : CustomFieldListOptions) (cell : Nat)
    (h : cell < mem.length) : (mem ++ [v])[cell]? = mem[cell]? := by
  simp [List.getElem?_append_left h]

/-- C8: GetUserFields and GetOrganizationFields do the same with nil options as with a
pointer to the zero CustomFieldListOptions (same calls, same result): addOptions is
called once, with the path of the operation and a non-nil pointer, to the zero value for
nil options and else to the caller's value; when it gives a path the only request is one
get of that path, and when the body decodes the decoded list and Page are returned.
With opts as a pointer into memory: a nil pointer is never read through, nothing is
written, every cell the caller had keeps its value, and the call with nil equals the
call with a pointer to a fresh zero value. -/
theorem fields_nil_options_as_zero (lib : Lib) (z : Client) :
    GetUserFields lib z none = GetUserFields lib z (some CustomFieldListOptions.zero) ∧
    GetOrganizationFields lib z none
      = GetOrganizationFields lib z (some CustomFieldListOptions.zero) ∧
    (∃ rest, (GetUserFields lib z none).1
        = Event.addOptions "/user_fields.json"
            (Options.customFieldList (some CustomFieldListOptions.zero)) :: rest ∧
        ∀ ev ∈ rest, ∀ s o, ev ≠ Event.addOptions s o) ∧
    (∃ rest, (GetOrganizationFields lib z none).1
        = Event.addOptions "/organization_fields.json"
            (Options.customFieldList (some CustomFieldListOptions.zero)) :: rest ∧
        ∀ ev ∈ rest, ∀ s o, ev ≠ Event.addOptions s o) ∧
    (∀ o : CustomFieldListOptions, ∃ rest, (GetUserFields lib z (some o)).1
        = Event.addOptions "/user_fields.json" (Options.customFieldList (some o)) :: rest ∧
        ∀ ev ∈ rest, ∀ s o, ev ≠ Event.addOptions s o) ∧
    (∀ o : CustomFieldListOptions, ∃ rest, (GetOrganizationFields lib z (some o)).1
        = Event.addOptions "/organization_fields.json"
            (Options.customFieldList (some o)) :: rest ∧
        ∀ ev ∈ rest, ∀ s o, ev ≠ Event.addOptions s o) ∧
    (∀ opts s, Event.addOptions s (Options.customFieldList none)
        ∉ (GetUserFields lib z opts).1) ∧
    (∀ opts s, Event.addOptions s (Options.customFieldList none)
        ∉ (GetOrganizationFields lib z opts).1) ∧
    (∀ opts, (requests (GetUserFields lib z opts).1).length ≤ 1) ∧
    (∀ opts, (requests (GetOrganizationFields lib z opts).1).length ≤ 1) ∧
    (∀ opts u, lib.addOptions "/user_fields.json" (Options.customFieldList
        (some (opts.getD CustomFieldListOptions.zero))) = .ok u →
      requests (GetUserFields lib z opts).1 = [Event.get u]) ∧
    (∀ opts u body data, lib.addOptions "/user_fields.json" (Options.customFieldList
        (some (opts.getD CustomFieldListOptions.zero))) = .ok u →
      z.get u = .ok body →
      Unmarshal lib (fieldsData lib "user_fields") body FieldsData.zero = .ok data →
      GetUserFields lib z opts
        = ([Event.addOptions "/user_fields.json" (Options.customFieldList
              (some (opts.getD CustomFieldListOptions.zero))), Event.get u,
            Event.unmarshal body], data.Fields, data.Page, none)) ∧
    (∀ mem opts, Access.read none ∉ (GetUserFieldsAt lib z mem opts).2.1 ∧
      ∀ p v, Access.write p v ∉ (GetUserFieldsAt lib z mem opts).2.1) ∧
    (∀ mem opts cell, cell < mem.length →
      (GetUserFieldsAt lib z mem opts).1[cell]? = mem[cell]?) ∧
    (∀ mem cell v, mem[cell]? = some v →
      GetUserFieldsAt lib z mem (some cell)
        = (mem, [Access.read (some cell)], GetUserFields lib z (some v))) ∧
    (∀ mem, (GetUserFieldsAt lib z mem none).2.2
        = GetUserFields lib z (some CustomFieldListOptions.zero) ∧
      (GetUserFieldsAt lib z mem none).2.2
        = (GetUserFieldsAt lib z (mem ++ [CustomFieldListOptions.zero])
            (some mem.length)).2.2) ∧
    (∀ opts u, lib.addOptions "/organization_fields.json" (Options.customFieldList
        (some (opts.getD CustomFieldListOptions.zero))) = .ok u →
      requests (GetOrganizationFields lib z opts).1 = [Event.get u]) ∧
    (∀ opts u body data, lib.addOptions "/organization_fields.json" (Options.customFieldList
        (some (opts.getD CustomFieldListOptions.zero))) = .ok u →
      z.get u = .ok body →
      Unmarshal lib (fieldsData lib "organization_fields") body FieldsData.zero = .ok data →
      GetOrganizationFields lib z opts
        = ([Event.addOptions "/organization_fields.json" (Options.customFieldList
              (some (opts.getD CustomFieldListOptions.zero))), Event.get u,
            Event.unmarshal body], data.Fields, data.Page, none)) ∧
    (∀ mem opts, Access.read none ∉ (GetOrganizationFieldsAt lib z mem opts).2.1 ∧
      ∀ p v, Access.write p v ∉ (GetOrganizationFieldsAt lib z mem opts).2.1) ∧
    (∀ mem opts cell, cell < mem.length →
      (GetOrganizationFieldsAt lib z mem opts).1[cell]? = mem[cell]?) ∧
    (∀ mem cell v, mem[cell]? = some v →
      GetOrganizationFieldsAt lib z mem (some cell)
        = (mem, [Access.read (some cell)], GetOrganizationFields lib z (some v))) ∧
    (∀ mem, (GetOrganizationFieldsAt lib z mem none).2.2
        = GetOrganizationFields lib z (some CustomFieldListOptions.zero) ∧
      (GetOrganizationFieldsAt lib z mem none).2.2
        = (GetOrganizationFieldsAt lib z (mem ++ [CustomFieldListOptions.zero])
            (some mem.length)).2.2) := by
  have user : ∀ o : CustomFieldListOptions, ∃ rest, (GetUserFields lib z (some o)).1
      = Event.addOptions "/user_fields.json" (Options.customFieldList (some o)) :: rest ∧
      (∀ ev ∈ rest, ∀ s o, ev ≠ Event.addOptions s o) ∧
      (requests (GetUserFields lib z (some o)).1).length ≤ 1 := by
    intro o
    rcases h1 : lib.addOptions "/user_fields.json" (Options.customFieldList (some o))
      with e | u
    · simp only [GetUserFields, h1]
      exact ⟨[], rfl, by simp, by simp [requests, Event.isRequest]⟩
    · rcases h2 : z.get u with e | body
      · simp only [GetUserFields, h1, h2]
        exact ⟨_, rfl, by simp, by simp [requests, Event.isRequest]⟩
      · rcases h3 : Unmarshal lib (fieldsData lib "user_fields") body FieldsData.zero
          with e | data
        · simp only [GetUserFields, h1, h2, h3]
          exact ⟨_, rfl, by simp, by simp [requests, Event.isRequest]⟩
        · simp only [GetUserFields, h1, h2, h3]
          exact ⟨_, rfl, by simp, by simp [requests, Event.isRequest]⟩
  have org : ∀ o : CustomFieldListOptions, ∃ rest, (GetOrganizationFields lib z (some o)).1
      = Event.addOptions "/organization_fields.json"
          (Options.customFieldList (some o)) :: rest ∧
      (∀ ev ∈ rest, ∀ s o, ev ≠ Event.addOptions s o) ∧
      (requests (GetOrganizationFields lib z (some o)).1).length ≤ 1 := by
    intro o
    rcases h1 : lib.addOptions "/organization_fields.json"
        (Options.customFieldList (some o)) with e | u
    · simp only [GetOrganizationFields, h1]
      exact ⟨[], rfl, by simp, by simp [requests, Event.isRequest]⟩
    · rcases h2 : z.get u with e | body
      · simp only [GetOrganizationFields, h1, h2]
        exact ⟨_, rfl, by simp, by simp [requests, Event.isRequest]⟩
      · rcases h3 : Unmarshal lib (fieldsData lib "organization_fields") body
          FieldsData.zero with e | data
        · simp only [GetOrganizationFields, h1, h2, h3]
          exact ⟨_, rfl, by simp, by simp [requests, Event.isRequest]⟩
        · simp only [GetOrganizationFields, h1, h2, h3]
          exact ⟨_, rfl, by simp, by simp [requests, Event.isRequest]⟩
  have hu : GetUserFields lib z none = GetUserFields lib z (some CustomFieldListOptions.zero) :=
    rfl
  have ho : GetOrganizationFields lib z none
      = GetOrganizationFields lib z (some CustomFieldListOptions.zero) := rfl
  refine ⟨hu, ho, ?_, ?_, ?_, ?_, ?_, ?_, ?_, ?_, ?_, ?_, ?_, ?_, ?_, ?_, ?_, ?_, ?_, ?_, ?_, ?_⟩
  · rw [hu]
    obtain ⟨rest, h1, h2, _⟩ := user CustomFieldListOptions.zero
    exact ⟨rest, h1, h2⟩
  · rw [ho]
    obtain ⟨rest, h1, h2, _⟩ := org CustomFieldListOptions.zero
    exact ⟨rest, h1, h2⟩
  · intro o
    obtain ⟨rest, h1, h2, _⟩ := user o
    exact ⟨rest, h1, h2⟩
  · intro o
    obtain ⟨rest, h1, h2, _⟩ := org o
    exact ⟨rest, h1, h2⟩
  · intro opts s hmem
    have key : ∀ o, Event.addOptions s (Options.customFieldList none)
        ∉ (GetUserFields lib z (some o)).1 := by
      intro o hm
      obtain ⟨rest, h1, h2, _⟩ := user o
      rw [h1] at hm
      rcases List.mem_cons.mp hm with h | h
      · injection h with _ h
        injection h with h
        exact Option.noConfusion h
      · exact h2 _ h s _ rfl
    cases opts with
    | none => rw [hu] at hmem; exact key _ hmem
    | some o => exact key o hmem
  · intro opts s hmem
    have key : ∀ o, Event.addOptions s (Options.customFieldList none)
        ∉ (GetOrganizationFields lib z (some o)).1 := by
      intro o hm
      obtain ⟨rest, h1, h2, _⟩ := org o
      rw [h1] at hm
      rcases List.mem_cons.mp hm with h | h
      · injection h with _ h
        injection h with h
        exact Option.noConfusion h
      · exact h2 _ h s _ rfl
    cases opts with
    | none => rw [ho] at hmem; exact key _ hmem
    | some o => exact key o hmem
  · intro opts
    cases opts with
    | none => rw [hu]; exact (user _).choose_spec.2.2
    | some o => exact (user o).choose_spec.2.2
  · intro opts
    cases opts with
    | none => rw [ho]; exact (org _).choose_spec.2.2
    | some o => exact (org o).choose_spec.2.2
  · intro opts u h1
    cases opts with
    | none => rw [GetUserFields_nil]; exact GetUserFields_some_requests lib z _ u h1
    | some o => exact GetUserFields_some_requests lib z o u h1
  · intro opts u body data h1 h2 h3
    cases opts with
    | none => rw [GetUserFields_nil]; exact GetUserFields_some_ok lib z _ u body data h1 h2 h3
    | some o => exact GetUserFields_some_ok lib z o u body data h1 h2 h3
  · intro mem opts
    cases opts with
    | none => simp [GetUserFieldsAt]
    | some cell => simp [GetUserFieldsAt]
  · intro mem opts cell hcell
    cases opts with
    | none => exact cell_kept mem _ cell hcell
    | some c => rfl
  · intro mem cell v hv
    simp only [GetUserFieldsAt, OptionsMemory.load, hv]
  · intro mem
    refine ⟨?_, ?_⟩
    · simp only [GetUserFieldsAt, load_new_cell]
    · simp only [GetUserFieldsAt, load_new_cell]
  · intro opts u h1
    cases opts with
    | none => rw [GetOrganizationFields_nil]; exact GetOrganizationFields_some_requests lib z _ u h1
    | some o => exact GetOrganizationFields_some_requests lib z o u h1
  · intro opts u body data h1 h2 h3
    cases opts with
    | none => rw [GetOrganizationFields_nil]; exact GetOrganizationFields_some_ok lib z _ u body data h1 h2 h3
    | some o => exact GetOrganizationFields_some_ok lib z o u body data h1 h2 h3
  · intro mem opts
    cases opts with
    | none => simp [GetOrganizationFieldsAt]
    | some cell => simp [GetOrganizationFieldsAt]
  · intro mem opts cell hcell
    cases opts with
    | none => exact cell_kept mem _ cell hcell
    | some c => rfl
  · intro mem cell v hv
    simp only [GetOrganizationFieldsAt, OptionsMemory.load, hv]
  · intro mem
    refine ⟨?_, ?_⟩
    · simp only [GetOrganizationFieldsAt, load_new_cell]
    · simp only [GetOrganizationFieldsAt, load_new_cell]

/-- C8, on a sample: with nil options and a body that is an empty object, the one
request is a get of the path addOptions gives, and nothing is read through nil. -/
theorem fields_nil_options_as_zero_witness :
    sampleLib.addOptions "/user_fields.json"
        (Options.customFieldList (some CustomFieldListOptions.zero))
      = .ok "/user_fields.json" ∧
    requests (GetUserFields sampleLib (answering 200 emptyObjectBody) none).1
      = [Event.get "/user_fields.json"] ∧
    GetUserFields sampleLib (answering 200 emptyObjectBody) none
      = ([Event.addOptions "/user_fields.json"
            (Options.customFieldList (some CustomFieldListOptions.zero)),
          Event.get "/user_fields.json", Event.unmarshal emptyObjectBody],
         Slice.nil, Page.zero, none) :=
  ⟨by rfl,
   (fields_nil_options_as_zero sampleLib (answering 200 emptyObjectBody)).2.2.2.2.2.2.2.2.2.2.1
      none "/user_fields.json" (by rfl),
   (fields_nil_options_as_zero sampleLib
      (answering 200 emptyObjectBody)).2.2.2.2.2.2.2.2.2.2.2.1
      none "/user_fields.json" emptyObjectBody FieldsData.zero (by rfl) (by rfl) (by rfl)⟩

/-- C9: UpdateManyOrganizations sends exactly one request, a post to
"/organizations/update_many.json" of the input list, in input order, under the key
"organizations", with the one option expectStatus(200), so that the accepted status is
200 and not the 201 of a post; when the post succeeds and the body decodes it returns
the Job stored under "job_status" with a nil error. -/
theorem updateManyOrganizations_post (lib : Lib) (z : Client) (orgs : List Organization) :
    requests (UpdateManyOrganizations lib z orgs).1
      = [Event.post "/organizations/update_many.json" (Payload.organizations orgs)
          [RequestOption.expectStatus 200]] ∧
    Payload.key (Payload.organizations orgs) = "organizations" ∧
    acceptedStatus StatusCreated [RequestOption.expectStatus 200] = 200 ∧
    acceptedStatus StatusCreated [] = 201 ∧
    (∀ body result,
      z.post "/organizations/update_many.json" (Payload.organizations orgs)
        [RequestOption.expectStatus 200] = .ok body →
      Unmarshal lib (jobStatusData lib) body Job.zero = .ok result →
      (UpdateManyOrganizations lib z orgs).2 = (result, none)) ∧
    (∀ body members k j job,
      z.post "/organizations/update_many.json" (Payload.organizations orgs)
        [RequestOption.expectStatus 200] = .ok body →
      lib.parse body = .ok (JSON.object members) →
      membersFor "job_status" members = [(k, j)] →
      lib.decodeJob j Job.zero none = .ok (job, none) →
      (UpdateManyOrganizations lib z orgs).2 = (job, none)) := by
  have hsucc : ∀ body result,
      z.post "/organizations/update_many.json" (Payload.organizations orgs)
        [RequestOption.expectStatus 200] = .ok body →
      Unmarshal lib (jobStatusData lib) body Job.zero = .ok result →
      (UpdateManyOrganizations lib z orgs).2 = (result, none) := by
    intro body result h1 h2
    have h1a : z.post "/organizations/update_many.json" (Payload.organizations orgs)
        [RequestOption.expectStatus StatusOK] = .ok body := h1
    simp only [UpdateManyOrganizations, h1a, h2]
  refine ⟨?_, rfl, rfl, rfl, hsucc, ?_⟩
  · rcases h1 : z.post "/organizations/update_many.json" (Payload.organizations orgs)
        [RequestOption.expectStatus StatusOK] with e | body
    · simp only [UpdateManyOrganizations, h1]
      rfl
    · rcases h2 : Unmarshal lib (jobStatusData lib) body Job.zero with e | data
      · simp only [UpdateManyOrganizations, h1, h2]
        rfl
      · simp only [UpdateManyOrganizations, h1, h2]
        rfl
  · intro body members k j job h1 hparse hkey hstore
    exact hsucc body job h1
      (Unmarshal_single lib "struct" "job_status" lib.decodeJob body members k j Job.zero job
        hparse hkey hstore)

/-- C9, on a sample: status 200 with a "job_status" body gives that job. -/
theorem updateManyOrganizations_post_witness :
    (answering 200 sampleJobBody).post "/organizations/update_many.json"
        (Payload.organizations [Organization.zero]) [RequestOption.expectStatus 200]
      = .ok sampleJobBody ∧
    (UpdateManyOrganizations sampleLib (answering 200 sampleJobBody) [Organization.zero]).2
      = ({ Job.zero with ID := "e57bc8b851f93833d87748557c9b7e4b", Status := "completed" },
         none) :=
  ⟨by rfl,
   (updateManyOrganizations_post sampleLib (answering 200 sampleJobBody)
      [Organization.zero]).2.2.2.2.1 sampleJobBody
      { Job.zero with ID := "e57bc8b851f93833d87748557c9b7e4b", Status := "completed" }
      (by rfl) (by rfl)⟩

/-- C10: a job read returns what the response holds, whatever was asked for: GetJob
returns the job decoded from the member stored under "job_status", for every id;
GetJobs and ListJobs return the jobs decoded from the "job_statuses" array, as many as
the array has and in its order. -/
theorem job_reads_return_payload (lib : Lib) (z : Client) (body : String)
    (members : List (String × JSON)) (k : String) (j : JSON)
    (hparse : lib.parse body = .ok (JSON.object members)) :
    (∀ id u job, lib.addOptions ("/job_statuses/" ++ id ++ ".json") Options.empty = .ok u →
      z.get u = .ok body →
      membersFor "job_status" members = [(k, j)] →
      lib.decodeJob j Job.zero none = .ok (job, none) →
      (GetJob lib z id).2 = (job, none)) ∧
    (∀ ids u elems jobs, lib.addOptions "/job_statuses/show_many.json"
        (Options.ids (String.intercalate "," ids)) = .ok u →
      z.get u = .ok body →
      membersFor "job_statuses" members = [(k, JSON.array elems)] →
      List.Forall₂ (fun el job => lib.decodeJob el Job.zero none = .ok (job, none))
        elems jobs →
      (GetJobs lib z ids).2.2 = none ∧ (GetJobs lib z ids).2.1.toList = jobs ∧
      (GetJobs lib z ids).2.1.len = elems.length) ∧
    (∀ u elems jobs, lib.addOptions "/job_statuses.json" Options.empty = .ok u →
      z.get u = .ok body →
      membersFor "job_statuses" members = [(k, JSON.array elems)] →
      List.Forall₂ (fun el job => lib.decodeJob el Job.zero none = .ok (job, none))
        elems jobs →
      (ListJobs lib z).2.2 = none ∧ (ListJobs lib z).2.1.toList = jobs ∧
      (ListJobs lib z).2.1.len = elems.length) := by
  have list : ∀ elems jobs,
      membersFor "job_statuses" members = [(k, JSON.array elems)] →
      List.Forall₂ (fun el job => lib.decodeJob el Job.zero none = .ok (job, none))
        elems jobs →
      ∃ sl : Slice Job, Unmarshal lib (jobStatusesData lib) body Slice.nil = .ok sl ∧
        sl.toList = jobs ∧ sl.len = elems.length := by
    intro elems jobs hkey hall
    obtain ⟨sl, hsl, hlist, hlen, _⟩ :=
      decodeSlice_array "[]zendesk.Job" Job.zero lib.decodeJob elems jobs hall
    exact ⟨sl, Unmarshal_single lib "struct" "job_statuses" _ body members k _ Slice.nil sl
      hparse hkey hsl, hlist, hlen⟩
  refine ⟨?_, ?_, ?_⟩
  · intro id u job h1 h2 hkey hstore
    have h3 := Unmarshal_single lib "struct" "job_status" lib.decodeJob body members k j
      Job.zero job hparse hkey hstore
    simp only [GetJob, h1, h2, jobStatusData, h3]
  · intro ids u elems jobs h1 h2 hkey hall
    obtain ⟨sl, h3, hlist, hlen⟩ := list elems jobs hkey hall
    simp only [GetJobs, h1, h2, h3]
    exact ⟨trivial, hlist, hlen⟩
  · intro u elems jobs h1 h2 hkey hall
    obtain ⟨sl, h3, hlist, hlen⟩ := list elems jobs hkey hall
    simp only [ListJobs, h1, h2, h3]
    exact ⟨trivial, hlist, hlen⟩

/-- C10, on a sample: two ids are asked for, the body holds the jobs "b" and "a" in
that order, and these are returned. -/
theorem job_reads_return_payload_witness :
    sampleLib.parse sampleJobsBody
      = .ok (JSON.object [("job_statuses", JSON.array
          [JSON.object [("id", JSON.string "b"), ("status", JSON.string "queued")],
           JSON.object [("id", JSON.string "a"), ("status", JSON.string "working")]])]) ∧
    (GetJobs sampleLib (answering 200 sampleJobsBody) ["x", "y"]).2.1.toList
      = [{ Job.zero with ID := "b", Status := "queued" },
         { Job.zero with ID := "a", Status := "working" }] :=
  ⟨by rfl,
   ((job_reads_return_payload sampleLib (answering 200 sampleJobsBody) sampleJobsBody
      [("job_statuses", JSON.array
          [JSON.object [("id", JSON.string "b"), ("status", JSON.string "queued")],
           JSON.object [("id", JSON.string "a"), ("status", JSON.string "working")]])]
      "job_statuses"
      (JSON.array
          [JSON.object [("id", JSON.string "b"), ("status", JSON.string "queued")],
           JSON.object [("id", JSON.string "a"), ("status", JSON.string "working")]])
      (by rfl)).2.1 ["x", "y"] "/job_statuses/show_many.json?ids=x%2Cy"
      [JSON.object [("id", JSON.string "b"), ("status", JSON.string "queued")],
       JSON.object [("id", JSON.string "a"), ("status", JSON.string "working")]]
      [{ Job.zero with ID := "b", Status := "queued" },
       { Job.zero with ID := "a", Status := "working" }]
      (by rfl) (by rfl) (by rfl)
      (List.Forall₂.cons (by rfl) (List.Forall₂.cons (by rfl) List.Forall₂.nil))).2.1⟩

/-! ### Lemmas on decode errors -/

theorem Unmarshal_invalid {α : Type} (lib : Lib) (dec : Decoder α) (body : String) (v : α)
    (e : JsonError) (h : lib.parse body = .error e) :
    Unmarshal lib dec body v = .error e := by
  unfold Unmarshal
  rw [h]

theorem decodeMembers_one {α : Type} (f : Field α) (members : List (String × JSON))
    (k : String) (j : JSON) (v : α) (saved : Option JsonError)
    (hkey : membersFor f.name members = [(k, j)]) :
    decodeMembers [f] members v saved = f.store j v saved := by
  rw [decodeMembers_single, hkey]
  have hf : findField [f] k = some f := by
    rw [findField_single]
    have hmem : (k, j) ∈ membersFor f.name members := by
      rw [hkey]; exact List.mem_singleton.mpr rfl
    have := (List.mem_filter.mp hmem).2
    simp only at this
    rw [if_pos this]
  simp only [decodeMembers, hf]
  rcases hs : f.store j v saved with e | ⟨v1, s1⟩
  · rfl
  · rfl

/-- The one member stored in the field makes its decoder abort: `Unmarshal` returns that
error. -/
theorem Unmarshal_single_abort {α : Type} (lib : Lib) (goType name : String)
    (store : Decoder α) (body : String) (members : List (String × JSON)) (k : String)
    (j : JSON) (v : α) (e : JsonError)
    (hparse : lib.parse body = .ok (JSON.object members))
    (hkey : membersFor name members = [(k, j)])
    (hstore : store j v none = .error e) :
    Unmarshal lib (decodeStruct goType [{ name := name, store := store }]) body v
      = .error e := by
  unfold Unmarshal
  rw [hparse]
  simp only [decodeStruct]
  rw [decodeMembers_one { name := name, store := store } members k j v none hkey]
  simp only [hstore]

/-- The one member stored in the field leaves a saved error: `Unmarshal` returns that
error and not the value stored so far. -/
theorem Unmarshal_single_saved {α : Type} (lib : Lib) (goType name : String)
    (store : Decoder α) (body : String) (members : List (String × JSON)) (k : String)
    (j : JSON) (v v1 : α) (e : JsonError)
    (hparse : lib.parse body = .ok (JSON.object members))
    (hkey : membersFor name members = [(k, j)])
    (hstore : store j v none = .ok (v1, some e)) :
    Unmarshal lib (decodeStruct goType [{ name := name, store := store }]) body v
      = .error e := by
  unfold Unmarshal
  rw [hparse]
  simp only [decodeStruct]
  rw [decodeMembers_one { name := name, store := store } members k j v none hkey]
  simp only [hstore]

/-- A value that is neither an array nor null, stored into a slice: the slice is left
as it is and an `UnmarshalTypeError` is saved. -/
theorem decodeSlice_misfit {α : Type} (goType : String) (zero : α) (elem : Decoder α)
    (j : JSON) (v : Slice α) (saved : Option JsonError) (h : j.fitsSlice = false) :
    decodeSlice goType zero elem j v saved
      = .ok (v, saveError saved (JsonError.typeMismatch j.kind goType)) := by
  cases j with
  | array elems => simp [JSON.fitsSlice] at h
  | null => simp [JSON.fitsSlice] at h
  | bool b => rfl
  | number lit => rfl
  | string s => rfl
  | object members => rfl

theorem saveError_isSome (saved : Option JsonError) (e : JsonError) :
    (saveError saved e).isSome = true := by
  cases saved <;> rfl

theorem saveError_none (e : JsonError) : saveError none e = some e := rfl

theorem decodeStringPtr_total (j : JSON) (v : Option String) (saved : Option JsonError) :
    ∃ v1 s1, decodeStringPtr j v saved = .ok (v1, s1) ∧
      (saved.isSome = true → s1.isSome = true) := by
  cases j with
  | null => exact ⟨_, _, rfl, id⟩
  | string s => exact ⟨_, _, rfl, id⟩
  | bool b => exact ⟨_, _, rfl, fun _ => saveError_isSome _ _⟩
  | number lit => exact ⟨_, _, rfl, fun _ => saveError_isSome _ _⟩
  | array elems => exact ⟨_, _, rfl, fun _ => saveError_isSome _ _⟩
  | object members => exact ⟨_, _, rfl, fun _ => saveError_isSome _ _⟩

theorem decodeInt64_total (j : JSON) (v : Int) (saved : Option JsonError) :
    ∃ v1 s1, decodeInt64 j v saved = .ok (v1, s1) ∧
      (saved.isSome = true → s1.isSome = true) := by
  cases j with
  | null => exact ⟨_, _, rfl, id⟩
  | number lit =>
    rcases h : parseInt64 lit with _ | n
    · exact ⟨v, saveError saved (JsonError.typeMismatch ("number " ++ lit) "int64"),
        by simp only [decodeInt64, h], fun _ => saveError_isSome _ _⟩
    · exact ⟨n, saved, by simp only [decodeInt64, h], id⟩
  | string s => exact ⟨_, _, rfl, fun _ => saveError_isSome _ _⟩
  | bool b => exact ⟨_, _, rfl, fun _ => saveError_isSome _ _⟩
  | array elems => exact ⟨_, _, rfl, fun _ => saveError_isSome _ _⟩
  | object members => exact ⟨_, _, rfl, fun _ => saveError_isSome _ _⟩

/-- The decoders of the fields of `Page` never abort and never drop a saved error. -/
theorem pageFields_total (f : Field Page) (hf : f ∈ pageFields) (j : JSON) (p : Page)
    (saved : Option JsonError) :
    ∃ p1 s1, f.store j p saved = .ok (p1, s1) ∧
      (saved.isSome = true → s1.isSome = true) := by
  simp only [pageFields, List.mem_cons, List.mem_singleton, List.not_mem_nil, or_false] at hf
  rcases hf with rfl | rfl | rfl
  · obtain ⟨v1, s1, h, hs⟩ := decodeStringPtr_total j p.PreviousPage saved
    exact ⟨{ p with PreviousPage := v1 }, s1, by simp only [h, Except.map], hs⟩
  · obtain ⟨v1, s1, h, hs⟩ := decodeStringPtr_total j p.NextPage saved
    exact ⟨{ p with NextPage := v1 }, s1, by simp only [h, Except.map], hs⟩
  · obtain ⟨v1, s1, h, hs⟩ := decodeInt64_total j p.Count saved
    exact ⟨{ p with Count := v1 }, s1, by simp only [h, Except.map], hs⟩

theorem findField_head {α : Type} (f0 : Field α) (others : List (Field α)) (key : String)
    (hdisj : ∀ g ∈ others, foldName g.name ≠ foldName f0.name)
    (hk : keyMatches f0.name key = true) :
    findField (f0 :: others) key = some f0 := by
  unfold findField
  by_cases h1 : (f0.name == key) = true
  · simp [List.find?, h1]
  · have hfold : (foldName f0.name == foldName key) = true := by
      unfold keyMatches at hk
      simpa [h1] using hk
    have hnone : others.find? (fun f => f.name == key) = none := by
      rw [List.find?_eq_none]
      intro g hg hgk
      apply hdisj g hg
      have h2 : g.name = key := by simpa using hgk
      have h3 : foldName f0.name = foldName key := by simpa using hfold
      rw [h2, h3]
    simp [List.find?, h1, hnone, hfold]

theorem findField_tail {α : Type} (f0 : Field α) (others : List (Field α)) (key : String)
    (hk : keyMatches f0.name key = false) :
    findField (f0 :: others) key = findField others key := by
  unfold keyMatches at hk
  simp only [Bool.or_eq_false_iff] at hk
  unfold findField
  simp [List.find?, hk.1, hk.2]

theorem findField_mem {α : Type} (fields : List (Field α)) (key : String) (f : Field α)
    (h : findField fields key = some f) : f ∈ fields := by
  unfold findField at h
  rcases h1 : fields.find? (fun f => f.name == key) with _ | g
  · rw [h1] at h
    exact List.mem_of_find?_eq_some h
  · rw [h1] at h
    simp only [Option.some.injEq] at h
    rw [← h]
    exact List.mem_of_find?_eq_some h1

/-- Members none of which is stored in the first field, the other fields having
decoders that never abort: decoding ends without abort and keeps a saved error. -/
theorem decodeMembers_others {α : Type} (f0 : Field α) (others : List (Field α))
    (htotal : ∀ g ∈ others, ∀ j v s, ∃ v1 s1, g.store j v s = .ok (v1, s1) ∧
      (s.isSome = true → s1.isSome = true))
    (members : List (String × JSON)) (hkey : membersFor f0.name members = [])
    (v : α) (saved : Option JsonError) :
    ∃ v1 s1, decodeMembers (f0 :: others) members v saved = .ok (v1, s1) ∧
      (saved.isSome = true → s1.isSome = true) := by
  induction members generalizing v saved with
  | nil => exact ⟨v, saved, rfl, id⟩
  | cons m rest ih =>
    obtain ⟨key, j⟩ := m
    have hk : keyMatches f0.name key = false := by
      by_contra hne
      have ht : keyMatches f0.name key = true := by simpa using hne
      have : (key, j) ∈ membersFor f0.name ((key, j) :: rest) :=
        List.mem_filter.mpr ⟨List.mem_cons_self _ _, ht⟩
      rw [hkey] at this
      exact List.not_mem_nil _ this
    have hrest : membersFor f0.name rest = [] := by
      have : membersFor f0.name ((key, j) :: rest) = membersFor f0.name rest := by
        simp [membersFor, List.filter, hk]
      rw [← this]
      exact hkey
    rcases hf : findField others key with _ | g
    · have hf2 : findField (f0 :: others) key = none := by rw [findField_tail _ _ _ hk, hf]
      simp only [decodeMembers, hf2]
      exact ih hrest v saved
    · have hf2 : findField (f0 :: others) key = some g := by
        rw [findField_tail _ _ _ hk, hf]
      obtain ⟨v1, s1, hs, hsome⟩ := htotal g (findField_mem others key g hf) j v saved
      obtain ⟨v2, s2, hd, hsome2⟩ := ih hrest v1 s1
      refine ⟨v2, s2, ?_, fun h => hsome2 (hsome h)⟩
      simp only [decodeMembers, hf2, hs]
      exact hd

/-- One member is stored in the first field and leaves a saved error there, the other
fields having decoders that never abort: decoding ends with a saved error. -/
theorem decodeMembers_misfit {α : Type} (f0 : Field α) (others : List (Field α))
    (hdisj : ∀ g ∈ others, foldName g.name ≠ foldName f0.name)
    (htotal : ∀ g ∈ others, ∀ j v s, ∃ v1 s1, g.store j v s = .ok (v1, s1) ∧
      (s.isSome = true → s1.isSome = true))
    (k : String) (j : JSON)
    (hbad : ∀ v s, ∃ v1 s1, f0.store j v s = .ok (v1, s1) ∧ s1.isSome = true)
    (members : List (String × JSON)) (hkey : membersFor f0.name members = [(k, j)])
    (v : α) (saved : Option JsonError) :
    ∃ v1 e, decodeMembers (f0 :: others) members v saved = .ok (v1, some e) := by
  induction members generalizing v saved with
  | nil => simp [membersFor] at hkey
  | cons m rest ih =>
    obtain ⟨key, j0⟩ := m
    by_cases hk : keyMatches f0.name key = true
    · have hm : membersFor f0.name ((key, j0) :: rest)
          = (key, j0) :: membersFor f0.name rest := by
        simp [membersFor, List.filter, hk]
      rw [hm] at hkey
      injection hkey with hhead htail
      injection hhead with hk1 hj1
      subst hj1
      obtain ⟨v1, s1, hs, hsome⟩ := hbad v saved
      obtain ⟨v2, s2, hd, hsome2⟩ := decodeMembers_others f0 others htotal rest htail v1 s1
      have hs2 := hsome2 hsome
      obtain ⟨e, he⟩ := Option.isSome_iff_exists.mp hs2
      refine ⟨v2, e, ?_⟩
      simp only [decodeMembers, findField_head f0 others key hdisj hk, hs]
      rw [hd, he]
    · have hk2 : keyMatches f0.name key = false := by simpa using hk
      have hrest : membersFor f0.name rest = [(k, j)] := by
        have : membersFor f0.name ((key, j0) :: rest) = membersFor f0.name rest := by
          simp [membersFor, List.filter, hk2]
        rw [← this]
        exact hkey
      rcases hf : findField others key with _ | g
      · have hf2 : findField (f0 :: others) key = none := by
          rw [findField_tail _ _ _ hk2, hf]
        simp only [decodeMembers, hf2]
        exact ih hrest v saved
      · have hf2 : findField (f0 :: others) key = some g := by
          rw [findField_tail _ _ _ hk2, hf]
        obtain ⟨v1, s1, hs, _⟩ := htotal g (findField_mem others key g hf) j0 v saved
        obtain ⟨v2, e, hd⟩ := ih hrest v1 s1
        refine ⟨v2, e, ?_⟩
        simp only [decodeMembers, hf2, hs]
        exact hd

/-- The data struct of the custom field lists, the body being an object whose one
member under the key of the slice is neither an array nor null: `Unmarshal` fails. -/
theorem fieldsData_misfit (lib : Lib) (key : String)
    (hnames : ∀ f ∈ pageFields, foldName f.name ≠ foldName key)
    (body : String) (members : List (String × JSON)) (k : String) (j : JSON)
    (hparse : lib.parse body = .ok (JSON.object members))
    (hkey : membersFor key members = [(k, j)]) (hj : j.fitsSlice = false) :
    ∃ e, Unmarshal lib (fieldsData lib key) body FieldsData.zero = .error e := by
  obtain ⟨v1, e, hd⟩ := decodeMembers_misfit
    ({ name := key,
       store := fun j d saved =>
         (decodeSlice "[]zendesk.CustomField" CustomField.zero lib.decodeCustomField
            j d.Fields saved).map (fun r => ({ d with Fields := r.1 }, r.2)) } :
      Field FieldsData)
    (pageFields.map (fun f =>
       ({ name := f.name,
          store := fun j d saved =>
            (f.store j d.Page saved).map (fun r => ({ d with Page := r.1 }, r.2)) } :
         Field FieldsData)))
    (by
      intro g hg
      obtain ⟨f, hf, rfl⟩ := List.mem_map.mp hg
      exact hnames f hf)
    (by
      intro g hg j0 d s
      obtain ⟨f, hf, rfl⟩ := List.mem_map.mp hg
      obtain ⟨p1, s1, h, hs⟩ := pageFields_total f hf j0 d.Page s
      exact ⟨{ d with Page := p1 }, s1, by simp only [h, Except.map], hs⟩)
    k j
    (by
      intro d s
      refine ⟨{ d with Fields := d.Fields },
        saveError s (JsonError.typeMismatch j.kind "[]zendesk.CustomField"), ?_,
        saveError_isSome _ _⟩
      simp only [decodeSlice_misfit _ _ _ j d.Fields s hj, Except.map])
    members hkey FieldsData.zero none
  refine ⟨e, ?_⟩
  unfold Unmarshal fieldsData
  rw [hparse]
  simp only [decodeStruct]
  rw [hd]

/-- C11: when the dispatcher succeeds and json.Unmarshal of the body fails with an
error, every decoding operation returns that error with the zero result (nothing that
was stored before the failure), its calls ending with the Unmarshal;
CreateOrUpdateOrganization returns the zero Organization and created = false also for
status 201. Unmarshal fails when the body is not valid JSON, when the one member under
the wrapper key makes the payload decoder abort or save an error, and when the one
member under the key of a list is neither an array nor null. -/
theorem decode_error_returns_zero (lib : Lib) (z : Client) (body : String)
    (err : JsonError) :
    (∀ u, lib.addOptions "/job_statuses.json" Options.empty = .ok u → z.get u = .ok body →
      Unmarshal lib (jobStatusesData lib) body Slice.nil = .error err →
      ListJobs lib z
        = ([Event.addOptions "/job_statuses.json" Options.empty, Event.get u,
            Event.unmarshal body], Slice.nil, some (GoError.json err))) ∧
    (∀ id u, lib.addOptions ("/job_statuses/" ++ id ++ ".json") Options.empty = .ok u →
      z.get u = .ok body →
      Unmarshal lib (jobStatusData lib) body Job.zero = .error err →
      GetJob lib z id
        = ([Event.addOptions ("/job_statuses/" ++ id ++ ".json") Options.empty, Event.get u,
            Event.unmarshal body], Job.zero, some (GoError.json err))) ∧
    (∀ ids u, lib.addOptions "/job_statuses/show_many.json"
        (Options.ids (String.intercalate "," ids)) = .ok u → z.get u = .ok body →
      Unmarshal lib (jobStatusesData lib) body Slice.nil = .error err →
      GetJobs lib z ids
        = ([Event.addOptions "/job_statuses/show_many.json"
              (Options.ids (String.intercalate "," ids)), Event.get u,
            Event.unmarshal body], Slice.nil, some (GoError.json err))) ∧
    (∀ org, z.post "/organizations.json" (Payload.organization org) [] = .ok body →
      Unmarshal lib (organizationData lib) body Organization.zero = .error err →
      CreateOrganization lib z org
        = ([Event.post "/organizations.json" (Payload.organization org) [],
            Event.unmarshal body], Organization.zero, some (GoError.json err))) ∧
    (∀ orgID : Int, z.get ("/organizations/" ++ toString orgID ++ ".json") = .ok body →
      Unmarshal lib (organizationData lib) body Organization.zero = .error err →
      GetOrganization lib z orgID
        = ([Event.get ("/organizations/" ++ toString orgID ++ ".json"),
            Event.unmarshal body], Organization.zero, some (GoError.json err))) ∧
    (∀ orgIDs : List Int,
      z.get ("/organizations/show_many.json?" ++ Values.Encode (Values.Add [] "ids"
        (String.intercalate "," (orgIDs.map (fun id => toString id))))) = .ok body →
      Unmarshal lib (organizationsData lib) body Slice.nil = .error err →
      GetOrganizations lib z orgIDs
        = ([Event.get ("/organizations/show_many.json?" ++ Values.Encode (Values.Add [] "ids"
              (String.intercalate "," (orgIDs.map (fun id => toString id))))),
            Event.unmarshal body], Slice.nil, some (GoError.json err))) ∧
    (∀ orgIDs : List Int,
      z.get ("/organizations/show_many.json?" ++ Values.Encode (Values.Add [] "external_ids"
        (String.intercalate "," (orgIDs.map (fun id => toString id))))) = .ok body →
      Unmarshal lib (organizationsData lib) body Slice.nil = .error err →
      GetOrganizationsByExternalID lib z orgIDs
        = ([Event.get ("/organizations/show_many.json?" ++ Values.Encode
              (Values.Add [] "external_ids"
                (String.intercalate "," (orgIDs.map (fun id => toString id))))),
            Event.unmarshal body], Slice.nil, some (GoError.json err))) ∧
    (∀ (orgID : Int) org,
      z.put ("/organizations/" ++ toString orgID ++ ".json") (Payload.organization org)
        = .ok body →
      Unmarshal lib (organizationData lib) body Organization.zero = .error err →
      UpdateOrganization lib z orgID org
        = ([Event.put ("/organizations/" ++ toString orgID ++ ".json")
              (Payload.organization org), Event.unmarshal body],
           Organization.zero, some (GoError.json err))) ∧
    (∀ org resp, z.postWithResponse "/organizations/create_or_update.json"
        (Payload.organization org) = .ok (body, resp) →
      (resp.StatusCode = 200 ∨ resp.StatusCode = 201) →
      Unmarshal lib (organizationData lib) body Organization.zero = .error err →
      CreateOrUpdateOrganization lib z org
        = ([Event.postWithResponse "/organizations/create_or_update.json"
              (Payload.organization org), Event.unmarshal body],
           Organization.zero, false, some (GoError.json err))) ∧
    (∀ orgs, z.post "/organizations/update_many.json" (Payload.organizations orgs)
        [RequestOption.expectStatus StatusOK] = .ok body →
      Unmarshal lib (jobStatusData lib) body Job.zero = .error err →
      UpdateManyOrganizations lib z orgs
        = ([Event.post "/organizations/update_many.json" (Payload.organizations orgs)
              [RequestOption.expectStatus StatusOK], Event.unmarshal body],
           Job.zero, some (GoError.json err))) ∧
    (∀ opts u, lib.addOptions "/user_fields.json" (Options.customFieldList
        (some (opts.getD CustomFieldListOptions.zero))) = .ok u → z.get u = .ok body →
      Unmarshal lib (fieldsData lib "user_fields") body FieldsData.zero = .error err →
      GetUserFields lib z opts
        = ([Event.addOptions "/user_fields.json" (Options.customFieldList
              (some (opts.getD CustomFieldListOptions.zero))), Event.get u,
            Event.unmarshal body], Slice.nil, Page.zero, some (GoError.json err))) ∧
    (∀ opts u, lib.addOptions "/organization_fields.json" (Options.customFieldList
        (some (opts.getD CustomFieldListOptions.zero))) = .ok u → z.get u = .ok body →
      Unmarshal lib (fieldsData lib "organization_fields") body FieldsData.zero
        = .error err →
      GetOrganizationFields lib z opts
        = ([Event.addOptions "/organization_fields.json" (Options.customFieldList
              (some (opts.getD CustomFieldListOptions.zero))), Event.get u,
            Event.unmarshal body], Slice.nil, Page.zero, some (GoError.json err))) ∧
    (∀ (α : Type) (dec : Decoder α) (v : α), lib.parse body = .error err →
      Unmarshal lib dec body v = .error err) ∧
    (∀ members k j, lib.parse body = .ok (JSON.object members) →
      membersFor "job_status" members = [(k, j)] →
      (lib.decodeJob j Job.zero none = .error err ∨
        ∃ stored, lib.decodeJob j Job.zero none = .ok (stored, some err)) →
      Unmarshal lib (jobStatusData lib) body Job.zero = .error err) ∧
    (∀ members k j, lib.parse body = .ok (JSON.object members) →
      membersFor "organization" members = [(k, j)] →
      (lib.decodeOrganization j Organization.zero none = .error err ∨
        ∃ stored, lib.decodeOrganization j Organization.zero none = .ok (stored, some err)) →
      Unmarshal lib (organizationData lib) body Organization.zero = .error err) ∧
    (∀ members k j, lib.parse body = .ok (JSON.object members) →
      membersFor "job_statuses" members = [(k, j)] → j.fitsSlice = false →
      Unmarshal lib (jobStatusesData lib) body Slice.nil
        = .error (JsonError.typeMismatch j.kind "[]zendesk.Job")) ∧
    (∀ members k j, lib.parse body = .ok (JSON.object members) →
      membersFor "organizations" members = [(k, j)] → j.fitsSlice = false →
      Unmarshal lib (organizationsData lib) body Slice.nil
        = .error (JsonError.typeMismatch j.kind "[]zendesk.Organization")) ∧
    (∀ members k j, lib.parse body = .ok (JSON.object members) →
      membersFor "user_fields" members = [(k, j)] → j.fitsSlice = false →
      ∃ e, Unmarshal lib (fieldsData lib "user_fields") body FieldsData.zero = .error e) ∧
    (∀ members k j, lib.parse body = .ok (JSON.object members) →
      membersFor "organization_fields" members = [(k, j)] → j.fitsSlice = false →
      ∃ e, Unmarshal lib (fieldsData lib "organization_fields") body FieldsData.zero
        = .error e) := by
  refine ⟨?_, ?_, ?_, ?_, ?_, ?_, ?_, ?_, ?_, ?_, ?_, ?_, ?_, ?_, ?_, ?_, ?_, ?_, ?_⟩
  · intro u h1 h2 h3
    simp only [ListJobs, h1, h2, h3]
  · intro id u h1 h2 h3
    simp only [GetJob, h1, h2, h3]
  · intro ids u h1 h2 h3
    simp only [GetJobs, h1, h2, h3]
  · intro org h1 h3
    simp only [CreateOrganization, h1, h3]
  · intro orgID h1 h3
    simp only [GetOrganization, h1, h3]
  · intro orgIDs h1 h3
    simp only [GetOrganizations, h1, h3]
  · intro orgIDs h1 h3
    simp only [GetOrganizationsByExternalID, h1, h3]
  · intro orgID org h1 h3
    simp only [UpdateOrganization, h1, h3]
  · intro org resp h1 hs h3
    rcases hs with hs | hs
    · simp [CreateOrUpdateOrganization, h1, h3, hs, StatusOK, StatusCreated]
    · simp [CreateOrUpdateOrganization, h1, h3, hs, StatusOK, StatusCreated]
  · intro orgs h1 h3
    simp only [UpdateManyOrganizations, h1, h3]
  · intro opts u h h2 h3
    cases opts with
    | none =>
      have h1 : lib.addOptions "/user_fields.json"
          (Options.customFieldList (some CustomFieldListOptions.zero)) = .ok u := h
      simp only [GetUserFields, h1, h2, h3, Option.getD]
    | some o =>
      have h1 : lib.addOptions "/user_fields.json" (Options.customFieldList (some o))
          = .ok u := h
      simp only [GetUserFields, h1, h2, h3, Option.getD]
  · intro opts u h h2 h3
    cases opts with
    | none =>
      have h1 : lib.addOptions "/organization_fields.json"
          (Options.customFieldList (some CustomFieldListOptions.zero)) = .ok u := h
      simp only [GetOrganizationFields, h1, h2, h3, Option.getD]
    | some o =>
      have h1 : lib.addOptions "/organization_fields.json"
          (Options.customFieldList (some o)) = .ok u := h
      simp only [GetOrganizationFields, h1, h2, h3, Option.getD]
  · intro α dec v h
    exact Unmarshal_invalid lib dec body v err h
  · intro members k j hparse hkey hstore
    rcases hstore with h | ⟨stored, h⟩
    · exact Unmarshal_single_abort lib "struct" "job_status" lib.decodeJob body members k j
        Job.zero err hparse hkey h
    · exact Unmarshal_single_saved lib "struct" "job_status" lib.decodeJob body members k j
        Job.zero stored err hparse hkey h
  · intro members k j hparse hkey hstore
    rcases hstore with h | ⟨stored, h⟩
    · exact Unmarshal_single_abort lib "struct" "organization" lib.decodeOrganization body
        members k j Organization.zero err hparse hkey h
    · exact Unmarshal_single_saved lib "struct" "organization" lib.decodeOrganization body
        members k j Organization.zero stored err hparse hkey h
  · intro members k j hparse hkey hj
    exact Unmarshal_single_saved lib "struct" "job_statuses" _ body members k j Slice.nil
      Slice.nil _ hparse hkey
      (by rw [decodeSlice_misfit _ _ _ j Slice.nil none hj, saveError_none])
  · intro members k j hparse hkey hj
    exact Unmarshal_single_saved lib "struct" "organizations" _ body members k j Slice.nil
      Slice.nil _ hparse hkey
      (by rw [decodeSlice_misfit _ _ _ j Slice.nil none hj, saveError_none])
  · intro members k j hparse hkey hj
    exact fieldsData_misfit lib "user_fields"
      (by
        intro f hf
        simp only [pageFields, List.mem_cons, List.mem_singleton, List.not_mem_nil,
          or_false] at hf
        rcases hf with rfl | rfl | rfl <;> decide)
      body members k j hparse hkey hj
  · intro members k j hparse hkey hj
    exact fieldsData_misfit lib "organization_fields"
      (by
        intro f hf
        simp only [pageFields, List.mem_cons, List.mem_singleton, List.not_mem_nil,
          or_false] at hf
        rcases hf with rfl | rfl | rfl <;> decide)
      body members k j hparse hkey hj

/-- C11, on samples: status 201 with a body that is not JSON, and a "job_status" whose
status is stored before its id is found to be a number. -/
theorem decode_error_returns_zero_witness :
    CreateOrUpdateOrganization sampleLib (answering 201 sampleHtmlBody) Organization.zero
      = ([Event.postWithResponse "/organizations/create_or_update.json"
            (Payload.organization Organization.zero), Event.unmarshal sampleHtmlBody],
         Organization.zero, false, some (GoError.json (JsonError.invalid 1))) ∧
    mistypedLib.decodeJob
        (JSON.object [("status", JSON.string "completed"), ("id", JSON.number "5")])
        Job.zero none
      = .ok ({ Job.zero with Status := "completed" },
          some (JsonError.typeMismatch "number" "string")) ∧
    GetJob mistypedLib (answering 200 sampleMistypedJobBody) "abc"
      = ([Event.addOptions "/job_statuses/abc.json" Options.empty,
          Event.get "/job_statuses/abc.json", Event.unmarshal sampleMistypedJobBody],
         Job.zero, some (GoError.json (JsonError.typeMismatch "number" "string"))) :=
  ⟨(decode_error_returns_zero sampleLib (answering 201 sampleHtmlBody) sampleHtmlBody
      (JsonError.invalid 1)).2.2.2.2.2.2.2.2.1 Organization.zero
      { StatusCode := 201, Status := "", Header := [] } (by rfl) (Or.inr (by rfl))
      ((decode_error_returns_zero sampleLib (answering 201 sampleHtmlBody) sampleHtmlBody
        (JsonError.invalid 1)).2.2.2.2.2.2.2.2.2.2.2.2.1 Organization
        (organizationData sampleLib) Organization.zero (by rfl)),
   by rfl,
   (decode_error_returns_zero mistypedLib (answering 200 sampleMistypedJobBody)
      sampleMistypedJobBody (JsonError.typeMismatch "number" "string")).2.1 "abc"
      "/job_statuses/abc.json" (by rfl) (by rfl)
      ((decode_error_returns_zero mistypedLib (answering 200 sampleMistypedJobBody)
        sampleMistypedJobBody
        (JsonError.typeMismatch "number" "string")).2.2.2.2.2.2.2.2.2.2.2.2.2.1
        [("job_status", JSON.object
          [("status", JSON.string "completed"), ("id", JSON.number "5")])]
        "job_status"
        (JSON.object [("status", JSON.string "completed"), ("id", JSON.number "5")])
        (by rfl) (by rfl)
        (Or.inr ⟨{ Job.zero with Status := "completed" }, by rfl⟩))⟩

end Zendesk
